import Mathlib

/-!
# Verification of the JCE/Tars wire-protocol decoder (`src/jce/decoder.py`)

This file is a shallow embedding, in Lean 4, of the repository's binary
decode engine: the `DataReader` byte cursor, the tag/type header codec, the
schema-less `GenericDecoder` (with its parallel skip path), the
`NodeDecoder`, and the byte-content classifier `convert_bytes_recursive`.
Byte streams are `List Nat` (each element a byte value `< 256`), positions
are `Nat`, and Python exceptions become an explicit error type.  Python's
unbounded recursion is embedded with an explicit fuel parameter that every
mutually recursive decoder function decrements on each call; running out of
fuel is the distinct artificial outcome `JceError.outOfFuel` (in the Python
source that can only correspond to the interpreter's own stack limit, never
to one of the library's error kinds).

Wire type ids follow the repository's constant module (`jce/const.py`),
whose numeric values are pinned by the sources at hand: `decoder.py`
comments that `JCE_INT1` is `0` (the BYTE element type of a simple list),
`tarsio/struct.py` lists the full code table (INT1 0, INT2 1, INT4 2,
INT8 3, FLOAT 4, DOUBLE 5, STRING1 6, STRING4 7, MAP 8, LIST 9,
STRUCT_BEGIN 10, SIMPLE_LIST 13), and the "plausible type" heuristic
accepts exactly the ids up to 13.  STRUCT_END is 11 and ZERO_TAG is 12,
the two remaining codes of the standard table.
-/

/-- Wire type id constants (`jce/const.py`). -/
def JCE_INT1 : Nat := 0
def JCE_INT2 : Nat := 1
def JCE_INT4 : Nat := 2
def JCE_INT8 : Nat := 3
def JCE_FLOAT : Nat := 4
def JCE_DOUBLE : Nat := 5
def JCE_STRING1 : Nat := 6
def JCE_STRING4 : Nat := 7
def JCE_MAP : Nat := 8
def JCE_LIST : Nat := 9
def JCE_STRUCT_BEGIN : Nat := 10
def JCE_STRUCT_END : Nat := 11
def JCE_ZERO_TAG : Nat := 12
def JCE_SIMPLE_LIST : Nat := 13

/-- Security limits from `decoder.py`. -/
def MAX_STRING_LENGTH : Nat := 100 * 1024 * 1024

def MAX_CONTAINER_SIZE : Nat := 10000000

/-- Error outcomes.  `malformedData` is the source's `JceDecodeError`,
`partialData` its `JcePartialDataError`, `recursionLimit` the
`RecursionError` raised by `_check_recursion`, and `outOfFuel` is the
embedding artifact standing for exhaustion of the fuel parameter. -/
inductive JceError where
  | partialData
  | malformedData
  | recursionLimit
  | outOfFuel
  deriving DecidableEq

/-- Big-endian value of a byte list (`int.from_bytes(bs, "big")`). -/
def bytesToNatBE (bs : List Nat) : Nat :=
  bs.foldl (fun acc b => acc * 256 + b) 0

/-- Little-endian value of a byte list. -/
def bytesToNatLE (bs : List Nat) : Nat :=
  bytesToNatBE bs.reverse

/-- Two's-complement reading of an unsigned `8*w`-bit value, as done by
`struct.unpack` with a signed format code. -/
def signedOfUnsigned (w : Nat) (u : Nat) : Int :=
  if u < 2 ^ (8 * w - 1) then (u : Int) else (u : Int) - 2 ^ (8 * w)

/-! ## IEEE-754 bit-level facts used by the float recovery heuristic

`read_float` / `read_double` compare the two candidate interpretations of
the raw bytes.  A float is represented here by its bit pattern; finiteness
and exact magnitude (as a rational) are computed from the bits, which is
exact since every finite IEEE value is rational and Python's comparisons
against the literal thresholds are exact (all thresholds are IEEE doubles,
embedded below by their exact rational values). -/

/-- `math.isfinite` on a 32-bit pattern: the exponent field is not all ones. -/
def f32IsFinite (bits : Nat) : Bool :=
  (bits / 2 ^ 23) % 2 ^ 8 ≠ 255

/-- `math.isfinite` on a 64-bit pattern. -/
def f64IsFinite (bits : Nat) : Bool :=
  (bits / 2 ^ 52) % 2 ^ 11 ≠ 2047

/-- Exact magnitude of a finite 32-bit float pattern. -/
def f32Abs (bits : Nat) : ℚ :=
  let e : Nat := (bits / 2 ^ 23) % 2 ^ 8
  let m : Nat := bits % 2 ^ 23
  if e = 0 then (m : ℚ) / 2 ^ 149 else ((2 ^ 23 + m : Nat) : ℚ) * 2 ^ e / 2 ^ 150

/-- Exact magnitude of a finite 64-bit float pattern. -/
def f64Abs (bits : Nat) : ℚ :=
  let e : Nat := (bits / 2 ^ 52) % 2 ^ 11
  let m : Nat := bits % 2 ^ 52
  if e = 0 then (m : ℚ) / 2 ^ 1074 else ((2 ^ 52 + m : Nat) : ℚ) * 2 ^ e / 2 ^ 1075

/-- The Python literal `1e-30` as an IEEE double, exactly: the nearest
double to `10 ^ (-30)` is `5708990770823840 / 2 ^ 152`. -/
def doubleLit1eNeg30 : ℚ := 5708990770823840 / 2 ^ 152

/-! ## `DataReader` (`decoder.py`, class `DataReader`)

The reader state is the byte list `d` (immutable), the cursor position
`p`, and the configured endianness `le` (`JceOption.LITTLE_ENDIAN`).  Each
primitive returns the outcome together with the position after the call,
so that the source contract "fails without mutating position" is visible
in the model: on error the returned position is the input position. -/

/-- `DataReader.read_bytes`: negative length is malformed, shortage is
partial data, otherwise the slice is returned and the cursor advances.
The `zero_copy` flag only selects `memoryview` vs `bytes` in the source
and does not change the returned byte contents, so it is dropped here. -/
def read_bytes (d : List Nat) (p : Nat) (len : Int) :
    (Except JceError (List Nat)) × Nat :=
  if len < 0 then (.error .malformedData, p)
  else if p + len.toNat > d.length then (.error .partialData, p)
  else (.ok ((d.drop p).take len.toNat), p + len.toNat)

/-- `DataReader.read_u8`: index the view, advancing on success. -/
def read_u8 (d : List Nat) (p : Nat) : (Except JceError Nat) × Nat :=
  match d[p]? with
  | some b => (.ok b, p + 1)
  | none => (.error .partialData, p)

/-- `DataReader.peek_u8`: index the view without advancing. -/
def peek_u8 (d : List Nat) (p : Nat) : (Except JceError Nat) × Nat :=
  match d[p]? with
  | some b => (.ok b, p)
  | none => (.error .partialData, p)

/-- `DataReader.skip`. -/
def skipBytes (d : List Nat) (p : Nat) (len : Int) :
    (Except JceError Unit) × Nat :=
  if len < 0 then (.error .malformedData, p)
  else if p + len.toNat > d.length then (.error .partialData, p)
  else (.ok (), p + len.toNat)

/-- `DataReader.read_int1`: one byte, sign-extended by hand in the source. -/
def read_int1 (d : List Nat) (p : Nat) : (Except JceError Int) × Nat :=
  match d[p]? with
  | some v => (.ok (if v ≤ 127 then (v : Int) else (v : Int) - 256), p + 1)
  | none => (.error .partialData, p)

/-- `DataReader._unpack` for the signed fixed-width integer readers
(`read_int2` / `read_int4` / `read_int8`): bounds-check, then unpack `w`
bytes with the configured byte order. -/
def read_int_w (w : Nat) (le : Bool) (d : List Nat) (p : Nat) :
    (Except JceError Int) × Nat :=
  if p + w > d.length then (.error .partialData, p)
  else
    let bs := (d.drop p).take w
    let u := if le then bytesToNatLE bs else bytesToNatBE bs
    (.ok (signedOfUnsigned w u), p + w)

/-- `DataReader.read_float`.  The returned value is the 32-bit pattern of
the float the source returns (big-endian unpack of the four bytes, or the
byte-swapped little-endian unpack when the recovery heuristic or the
explicit little-endian mode selects it). -/
def read_float (le : Bool) (d : List Nat) (p : Nat) :
    (Except JceError Nat) × Nat :=
  if p + 4 > d.length then (.error .partialData, p)
  else
    let bs := (d.drop p).take 4
    let primary := bytesToNatBE bs
    let alt := bytesToNatLE bs
    if le then (.ok alt, p + 4)
    else if !f32IsFinite primary && f32IsFinite alt then (.ok alt, p + 4)
    else if f32IsFinite alt && decide (f32Abs primary > 10 ^ 9)
        && decide (f32Abs alt ≤ 10 ^ 6) then (.ok alt, p + 4)
    else (.ok primary, p + 4)

/-- `DataReader.read_double`, analogously returning the 64-bit pattern. -/
def read_double (le : Bool) (d : List Nat) (p : Nat) :
    (Except JceError Nat) × Nat :=
  if p + 8 > d.length then (.error .partialData, p)
  else
    let bs := (d.drop p).take 8
    let primary := bytesToNatBE bs
    let alt := bytesToNatLE bs
    if le then (.ok alt, p + 8)
    else if !f64IsFinite primary && f64IsFinite alt then (.ok alt, p + 8)
    else if f64IsFinite alt && decide (f64Abs primary > 10 ^ 18)
        && decide (f64Abs alt ≤ 10 ^ 12) then (.ok alt, p + 8)
    else if f64IsFinite alt && decide (f64Abs primary < doubleLit1eNeg30)
        && decide (f64Abs alt ≤ 10 ^ 6) then (.ok alt, p + 8)
    else (.ok primary, p + 8)

/-- `DataReader.eof`. -/
def readerEof (d : List Nat) (p : Nat) : Bool :=
  p ≥ d.length

/-- Lift a reader primitive's result into the exception-propagating shape
used by the decoders (a Python `raise` aborts the surrounding decode, so
the failure position is dropped there). -/
def rd {α : Type} (r : (Except JceError α) × Nat) :
    Except JceError (α × Nat) :=
  match r with
  | (.ok a, p) => .ok (a, p)
  | (.error e, _) => .error e

/-! ## Decoded value tree

`GenericDecoder` produces Python values: ints, floats (kept here as the
bit pattern chosen by the reader), byte strings, lists, plain dicts (from
wire maps), `JceDict`s (tag-keyed, from wire structs), tuples (produced by
`_freeze_key` for composite map keys), strings (produced later by the
byte-content classifier), and `None` (the value of a `STRUCT_END` header
met inside `_read_value`).  Dicts are modelled as ordered key/value lists
with Python's insertion semantics: replacing the value in place when an
equal key exists, appending otherwise. -/
inductive JValue where
  | jint (i : Int)
  | jfloat (bits : Nat)
  | jdouble (bits : Nat)
  | jbytes (bs : List Nat)
  | jstr (cps : List Nat)
  | jlist (xs : List JValue)
  | jtuple (xs : List JValue)
  | jmap (entries : List (JValue × JValue))
  | jstruct (fields : List (Nat × JValue))
  | jnone

mutual

/-- Structural equality on values, playing the role of Python `==` on the
(frozen) objects used as dict keys. -/
def JValue.beq : JValue → JValue → Bool
  | .jint a, .jint b => a == b
  | .jfloat a, .jfloat b => a == b
  | .jdouble a, .jdouble b => a == b
  | .jbytes a, .jbytes b => a == b
  | .jstr a, .jstr b => a == b
  | .jlist xs, .jlist ys => JValue.beqList xs ys
  | .jtuple xs, .jtuple ys => JValue.beqList xs ys
  | .jmap xs, .jmap ys => JValue.beqPairs xs ys
  | .jstruct xs, .jstruct ys => JValue.beqFields xs ys
  | .jnone, .jnone => true
  | _, _ => false

def JValue.beqList : List JValue → List JValue → Bool
  | [], [] => true
  | x :: xs, y :: ys => JValue.beq x y && JValue.beqList xs ys
  | _, _ => false

def JValue.beqPairs : List (JValue × JValue) → List (JValue × JValue) → Bool
  | [], [] => true
  | (k1, v1) :: xs, (k2, v2) :: ys =>
      JValue.beq k1 k2 && JValue.beq v1 v2 && JValue.beqPairs xs ys
  | _, _ => false

def JValue.beqFields : List (Nat × JValue) → List (Nat × JValue) → Bool
  | [], [] => true
  | (k1, v1) :: xs, (k2, v2) :: ys =>
      k1 == k2 && JValue.beq v1 v2 && JValue.beqFields xs ys
  | _, _ => false

end

/-- Python `dict` insertion `result[key] = val` for `JValue` keys: if an
equal key is present its value is replaced (key object and position kept),
otherwise the pair is appended. -/
def insertPair (m : List (JValue × JValue)) (k v : JValue) :
    List (JValue × JValue) :=
  if m.any (fun kv => JValue.beq kv.1 k) then
    m.map (fun kv => if JValue.beq kv.1 k then (kv.1, v) else kv)
  else m ++ [(k, v)]

/-- `JceDict` insertion (`result[tag] = value`): tag-keyed, last write
wins, wire order of first occurrence preserved. -/
def insertField (m : List (Nat × JValue)) (k : Nat) (v : JValue) :
    List (Nat × JValue) :=
  if m.any (fun kv => kv.1 == k) then
    m.map (fun kv => if kv.1 == k then (kv.1, v) else kv)
  else m ++ [(k, v)]

/-- A total order on values used to model the deterministic
`items.sort(key=lambda x: str(x[0]))` inside `_freeze_key`.  The source
sorts by the rendered text of the key; the model sorts by a structural
rank.  No theorem in this file depends on the chosen order, only on the
freeze result being a tuple. -/
def JValue.rank : JValue → Nat
  | .jint _ => 0
  | .jfloat _ => 1
  | .jdouble _ => 2
  | .jbytes _ => 3
  | .jstr _ => 4
  | .jlist _ => 5
  | .jtuple _ => 6
  | .jmap _ => 7
  | .jstruct _ => 8
  | .jnone => 9

def JValue.keyLe (a b : JValue) : Bool :=
  match a, b with
  | .jint i, .jint j => i ≤ j
  | _, _ => JValue.rank a ≤ JValue.rank b

mutual

/-- `GenericDecoder._freeze_key`: immutable scalars pass through, dicts
become tuples of (key, frozen value) pairs in sorted order, lists become
tuples of frozen elements.  The `id()`-keyed cache in the source is pure
memoization and is dropped. -/
def freeze_key : JValue → JValue
  | .jstruct fields =>
      .jtuple (((freezeFields fields).mergeSort
        (fun a b => JValue.keyLe a.1 b.1)).map (fun kv => .jtuple [kv.1, kv.2]))
  | .jmap entries =>
      .jtuple (((freezePairs entries).mergeSort
        (fun a b => JValue.keyLe a.1 b.1)).map (fun kv => .jtuple [kv.1, kv.2]))
  | .jlist xs => .jtuple (freezeList xs)
  | v => v

def freezeFields : List (Nat × JValue) → List (JValue × JValue)
  | [] => []
  | (k, v) :: rest => (JValue.jint k, freeze_key v) :: freezeFields rest

def freezePairs : List (JValue × JValue) → List (JValue × JValue)
  | [] => []
  | (k, v) :: rest => (k, freeze_key v) :: freezePairs rest

def freezeList : List JValue → List JValue
  | [] => []
  | x :: rest => freeze_key x :: freezeList rest

end

/-! ## Header codec (`GenericDecoder._read_head`) -/

/-- Read one header: low nibble is the type, high nibble the tag, and a
high nibble of 15 means the true tag follows as one unsigned byte. -/
def read_head (d : List Nat) (p : Nat) :
    Except JceError ((Nat × Nat) × Nat) :=
  match rd (read_u8 d p) with
  | .error e => .error e
  | .ok (b, p1) =>
    let type_id := b &&& 0x0F
    let tag := (b &&& 0xF0) >>> 4
    if tag = 15 then
      match rd (read_u8 d p1) with
      | .error e => .error e
      | .ok (t, p2) => .ok ((t, type_id), p2)
    else .ok ((tag, type_id), p1)

/-- `GenericDecoder._check_recursion`: raises once the limit reaches 0. -/
def check_recursion (lim : Nat) : Except JceError Unit :=
  if lim ≤ 0 then .error .recursionLimit else .ok ()

/-! ## `GenericDecoder` recursive dispatch

All functions of the mutual block take the byte data `d` and endianness
`le`, the decoder's current `_recursion_limit` value `lim`, the cursor
position, and the fuel that makes the embedding total.  Fuel is consumed
one unit per call edge inside the block, identically in the decode and the
skip family, so the two stay comparable step for step. -/

mutual

/-- `GenericDecoder._read_value`: dispatch on the wire type id. -/
def read_value (le : Bool) (d : List Nat) :
    Nat → Nat → Nat → Nat → Except JceError (JValue × Nat)
  | 0, _, _, _ => .error .outOfFuel
  | fuel + 1, lim, type_id, p =>
    if type_id = JCE_ZERO_TAG then .ok (.jint 0, p)
    else if type_id = JCE_INT1 then
      (rd (read_int1 d p)).map (fun r => (.jint r.1, r.2))
    else if type_id = JCE_INT2 then
      (rd (read_int_w 2 le d p)).map (fun r => (.jint r.1, r.2))
    else if type_id = JCE_INT4 then
      (rd (read_int_w 4 le d p)).map (fun r => (.jint r.1, r.2))
    else if type_id = JCE_INT8 then
      (rd (read_int_w 8 le d p)).map (fun r => (.jint r.1, r.2))
    else if type_id = JCE_FLOAT then
      (rd (read_float le d p)).map (fun r => (.jfloat r.1, r.2))
    else if type_id = JCE_DOUBLE then
      (rd (read_double le d p)).map (fun r => (.jdouble r.1, r.2))
    else if type_id = JCE_STRING1 then
      match rd (read_u8 d p) with
      | .error e => .error e
      | .ok (len, p1) =>
        (rd (read_bytes d p1 len)).map (fun r => (.jbytes r.1, r.2))
    else if type_id = JCE_STRING4 then
      match rd (read_int_w 4 le d p) with
      | .error e => .error e
      | .ok (len, p1) =>
        if len < 0 then .error .malformedData
        else if len > (MAX_STRING_LENGTH : Int) then .error .malformedData
        else (rd (read_bytes d p1 len)).map (fun r => (.jbytes r.1, r.2))
    else if type_id = JCE_LIST then
      (read_list le d fuel lim p).map (fun r => (.jlist r.1, r.2))
    else if type_id = JCE_MAP then
      (read_map le d fuel lim p).map (fun r => (.jmap r.1, r.2))
    else if type_id = JCE_STRUCT_BEGIN then
      (read_struct le d fuel lim p).map (fun r => (.jstruct r.1, r.2))
    else if type_id = JCE_STRUCT_END then .ok (.jnone, p)
    else if type_id = JCE_SIMPLE_LIST then
      (read_simple_list le d fuel lim p).map (fun r => (.jbytes r.1, r.2))
    else .error .malformedData
termination_by structural fuel => fuel

/-- `GenericDecoder._read_list`. -/
def read_list (le : Bool) (d : List Nat) :
    Nat → Nat → Nat → Except JceError (List JValue × Nat)
  | 0, _, _ => .error .outOfFuel
  | fuel + 1, lim, p =>
    match check_recursion lim with
    | .error e => .error e
    | .ok _ =>
      match read_integer_generic le d fuel (lim - 1) p with
      | .error e => .error e
      | .ok (size, p1) => read_list_elems le d fuel (lim - 1) size [] p1
termination_by structural fuel => fuel

/-- The `for _ in range(size)` loop of `_read_list`. -/
def read_list_elems (le : Bool) (d : List Nat) :
    Nat → Nat → Nat → List JValue → Nat →
    Except JceError (List JValue × Nat)
  | 0, _, _, _, _ => .error .outOfFuel
  | fuel + 1, lim, size, acc, p =>
    match size with
    | 0 => .ok (acc, p)
    | size' + 1 =>
      match read_head d p with
      | .error e => .error e
      | .ok ((_tag, type_id), p1) =>
        match read_value le d fuel lim type_id p1 with
        | .error e => .error e
        | .ok (v, p2) =>
          read_list_elems le d fuel lim size' (acc ++ [v]) p2
termination_by structural fuel => fuel

/-- `GenericDecoder._read_map`. -/
def read_map (le : Bool) (d : List Nat) :
    Nat → Nat → Nat → Except JceError (List (JValue × JValue) × Nat)
  | 0, _, _ => .error .outOfFuel
  | fuel + 1, lim, p =>
    match check_recursion lim with
    | .error e => .error e
    | .ok _ =>
      match read_integer_generic le d fuel (lim - 1) p with
      | .error e => .error e
      | .ok (len, p1) => read_map_entries le d fuel (lim - 1) len [] p1
termination_by structural fuel => fuel

/-- The entry loop of `_read_map`: key header must carry tag 0, value
header tag 1; composite keys are frozen before insertion. -/
def read_map_entries (le : Bool) (d : List Nat) :
    Nat → Nat → Nat → List (JValue × JValue) → Nat →
    Except JceError (List (JValue × JValue) × Nat)
  | 0, _, _, _, _ => .error .outOfFuel
  | fuel + 1, lim, len, acc, p =>
    match len with
    | 0 => .ok (acc, p)
    | len' + 1 =>
      match read_head d p with
      | .error e => .error e
      | .ok ((k_tag, k_type), p1) =>
        if k_tag ≠ 0 then .error .malformedData
        else
          match read_value le d fuel lim k_type p1 with
          | .error e => .error e
          | .ok (key, p2) =>
            match read_head d p2 with
            | .error e => .error e
            | .ok ((v_tag, v_type), p3) =>
              if v_tag ≠ 1 then .error .malformedData
              else
                match read_value le d fuel lim v_type p3 with
                | .error e => .error e
                | .ok (val, p4) =>
                  let key' := match key with
                    | .jmap _ => freeze_key key
                    | .jstruct _ => freeze_key key
                    | .jlist _ => freeze_key key
                    | _ => key
                  read_map_entries le d fuel lim len'
                    (insertPair acc key' val) p4
termination_by structural fuel => fuel

/-- `GenericDecoder._read_struct`. -/
def read_struct (le : Bool) (d : List Nat) :
    Nat → Nat → Nat → Except JceError (List (Nat × JValue) × Nat)
  | 0, _, _ => .error .outOfFuel
  | fuel + 1, lim, p =>
    match check_recursion lim with
    | .error e => .error e
    | .ok _ => read_struct_fields le d fuel (lim - 1) [] p
termination_by structural fuel => fuel

/-- The `while True` loop of `_read_struct`: peek for `STRUCT_END`,
consume it and stop, otherwise read a full header and a value. -/
def read_struct_fields (le : Bool) (d : List Nat) :
    Nat → Nat → List (Nat × JValue) → Nat →
    Except JceError (List (Nat × JValue) × Nat)
  | 0, _, _, _ => .error .outOfFuel
  | fuel + 1, lim, acc, p =>
    match rd (peek_u8 d p) with
    | .error e => .error e
    | .ok (b, _) =>
      if b &&& 0x0F = JCE_STRUCT_END then
        match rd (read_u8 d p) with
        | .error e => .error e
        | .ok (_, p1) => .ok (acc, p1)
      else
        match read_head d p with
        | .error e => .error e
        | .ok ((tag, type_id), p1) =>
          match read_value le d fuel lim type_id p1 with
          | .error e => .error e
          | .ok (v, p2) =>
            read_struct_fields le d fuel lim (insertField acc tag v) p2
termination_by structural fuel => fuel

/-- `GenericDecoder._read_simple_list`: a nested header whose type must be
the BYTE id (`JCE_INT1`), then a generic integer count, then raw bytes. -/
def read_simple_list (le : Bool) (d : List Nat) :
    Nat → Nat → Nat → Except JceError (List Nat × Nat)
  | 0, _, _ => .error .outOfFuel
  | fuel + 1, lim, p =>
    match read_head d p with
    | .error e => .error e
    | .ok ((_type_tag, type_id), p1) =>
      if type_id ≠ JCE_INT1 then .error .malformedData
      else
        match read_integer_generic le d fuel lim p1 with
        | .error e => .error e
        | .ok (len, p2) => rd (read_bytes d p2 (len : Int))
termination_by structural fuel => fuel

/-- `GenericDecoder._read_integer_generic`: a headered value that must be
an integer, non-negative, and at most `MAX_CONTAINER_SIZE`. -/
def read_integer_generic (le : Bool) (d : List Nat) :
    Nat → Nat → Nat → Except JceError (Nat × Nat)
  | 0, _, _ => .error .outOfFuel
  | fuel + 1, lim, p =>
    match read_head d p with
    | .error e => .error e
    | .ok ((_tag, type_id), p1) =>
      match read_value le d fuel lim type_id p1 with
      | .error e => .error e
      | .ok (v, p2) =>
        match v with
        | .jint i =>
          if i < 0 then .error .malformedData
          else if i > (MAX_CONTAINER_SIZE : Int) then .error .malformedData
          else .ok (i.toNat, p2)
        | _ => .error .malformedData
termination_by structural fuel => fuel

end

/-! ## The parallel skip path (`GenericDecoder._skip_value` and friends)

Identical dispatch, but values are discarded: cursor-advancing `skip`
replaces byte reads.  Notable differences visible in the source and kept
here: no recursion-limit checks, no tag checks on map entries, no element
type check on simple lists, and unknown type ids are silently ignored.
Count fields still go through the full `_read_integer_generic`. -/

mutual

/-- `GenericDecoder._skip_value`. -/
def skip_value (le : Bool) (d : List Nat) :
    Nat → Nat → Nat → Nat → Except JceError Nat
  | 0, _, _, _ => .error .outOfFuel
  | fuel + 1, lim, type_id, p =>
    if type_id = JCE_ZERO_TAG then .ok p
    else if type_id = JCE_INT1 then
      (rd (skipBytes d p 1)).map (·.2)
    else if type_id = JCE_INT2 then
      (rd (skipBytes d p 2)).map (·.2)
    else if type_id = JCE_INT4 then
      (rd (skipBytes d p 4)).map (·.2)
    else if type_id = JCE_INT8 then
      (rd (skipBytes d p 8)).map (·.2)
    else if type_id = JCE_FLOAT then
      (rd (skipBytes d p 4)).map (·.2)
    else if type_id = JCE_DOUBLE then
      (rd (skipBytes d p 8)).map (·.2)
    else if type_id = JCE_STRING1 then
      match rd (read_u8 d p) with
      | .error e => .error e
      | .ok (len, p1) => (rd (skipBytes d p1 len)).map (·.2)
    else if type_id = JCE_STRING4 then
      match rd (read_int_w 4 le d p) with
      | .error e => .error e
      | .ok (len, p1) =>
        if len < 0 then .error .malformedData
        else if len > (MAX_STRING_LENGTH : Int) then .error .malformedData
        else (rd (skipBytes d p1 len)).map (·.2)
    else if type_id = JCE_LIST then skip_list le d fuel lim p
    else if type_id = JCE_MAP then skip_map le d fuel lim p
    else if type_id = JCE_STRUCT_BEGIN then skip_struct le d fuel lim p
    else if type_id = JCE_SIMPLE_LIST then skip_simple_list le d fuel lim p
    else .ok p
termination_by structural fuel => fuel

/-- `GenericDecoder._skip_list` (no recursion check in the source). -/
def skip_list (le : Bool) (d : List Nat) :
    Nat → Nat → Nat → Except JceError Nat
  | 0, _, _ => .error .outOfFuel
  | fuel + 1, lim, p =>
    match read_integer_generic le d fuel lim p with
    | .error e => .error e
    | .ok (len, p1) => skip_list_elems le d fuel lim len p1
termination_by structural fuel => fuel

def skip_list_elems (le : Bool) (d : List Nat) :
    Nat → Nat → Nat → Nat → Except JceError Nat
  | 0, _, _, _ => .error .outOfFuel
  | fuel + 1, lim, len, p =>
    match len with
    | 0 => .ok p
    | len' + 1 =>
      match read_head d p with
      | .error e => .error e
      | .ok ((_tag, type_id), p1) =>
        match skip_value le d fuel lim type_id p1 with
        | .error e => .error e
        | .ok p2 => skip_list_elems le d fuel lim len' p2
termination_by structural fuel => fuel

/-- `GenericDecoder._skip_map` (tags of the entry headers not checked). -/
def skip_map (le : Bool) (d : List Nat) :
    Nat → Nat → Nat → Except JceError Nat
  | 0, _, _ => .error .outOfFuel
  | fuel + 1, lim, p =>
    match read_integer_generic le d fuel lim p with
    | .error e => .error e
    | .ok (len, p1) => skip_map_entries le d fuel lim len p1
termination_by structural fuel => fuel

def skip_map_entries (le : Bool) (d : List Nat) :
    Nat → Nat → Nat → Nat → Except JceError Nat
  | 0, _, _, _ => .error .outOfFuel
  | fuel + 1, lim, len, p =>
    match len with
    | 0 => .ok p
    | len' + 1 =>
      match read_head d p with
      | .error e => .error e
      | .ok ((_k_tag, k_type), p1) =>
        match skip_value le d fuel lim k_type p1 with
        | .error e => .error e
        | .ok p2 =>
          match read_head d p2 with
          | .error e => .error e
          | .ok ((_v_tag, v_type), p3) =>
            match skip_value le d fuel lim v_type p3 with
            | .error e => .error e
            | .ok p4 => skip_map_entries le d fuel lim len' p4
termination_by structural fuel => fuel

/-- `GenericDecoder._skip_struct`. -/
def skip_struct (le : Bool) (d : List Nat) :
    Nat → Nat → Nat → Except JceError Nat
  | 0, _, _ => .error .outOfFuel
  | fuel + 1, lim, p => skip_struct_fields le d fuel lim p
termination_by structural fuel => fuel

def skip_struct_fields (le : Bool) (d : List Nat) :
    Nat → Nat → Nat → Except JceError Nat
  | 0, _, _ => .error .outOfFuel
  | fuel + 1, lim, p =>
    match rd (peek_u8 d p) with
    | .error e => .error e
    | .ok (b, _) =>
      if b &&& 0x0F = JCE_STRUCT_END then
        match rd (read_u8 d p) with
        | .error e => .error e
        | .ok (_, p1) => .ok p1
      else
        match read_head d p with
        | .error e => .error e
        | .ok ((_tag, type_id), p1) =>
          match skip_value le d fuel lim type_id p1 with
          | .error e => .error e
          | .ok p2 => skip_struct_fields le d fuel lim p2
termination_by structural fuel => fuel

/-- `GenericDecoder._skip_simple_list` (element type not checked). -/
def skip_simple_list (le : Bool) (d : List Nat) :
    Nat → Nat → Nat → Except JceError Nat
  | 0, _, _ => .error .outOfFuel
  | fuel + 1, lim, p =>
    match read_head d p with
    | .error e => .error e
    | .ok ((_type_tag, _type_id), p1) =>
      match read_integer_generic le d fuel lim p1 with
      | .error e => .error e
      | .ok (len, p2) => (rd (skipBytes d p2 (len : Int))).map (·.2)

end

/-! ## Top-level generic decode (`GenericDecoder.decode`) -/

/-- The `while not eof` loop of `GenericDecoder.decode`: read a header,
stop silently on a top-level `STRUCT_END`, otherwise read the value and
store it under its tag. -/
def decode_loop (le : Bool) (d : List Nat) :
    Nat → Nat → List (Nat × JValue) → Nat →
    Except JceError (List (Nat × JValue) × Nat)
  | 0, _, _, _ => .error .outOfFuel
  | fuel + 1, lim, acc, p =>
    if readerEof d p then .ok (acc, p)
    else
      match read_head d p with
      | .error e => .error e
      | .ok ((tag, type_id), p1) =>
        if type_id = JCE_STRUCT_END then .ok (acc, p1)
        else
          match read_value le d fuel lim type_id p1 with
          | .error e => .error e
          | .ok (v, p2) => decode_loop le d fuel lim (insertField acc tag v) p2

/-- `GenericDecoder.decode`: run the top loop from position 0 with the
fresh recursion limit of 100 and return the tag dictionary. -/
def generic_decode (le : Bool) (fuel : Nat) (d : List Nat) :
    Except JceError (List (Nat × JValue)) :=
  (decode_loop le d fuel 100 [] 0).map (·.1)

/-! ## UTF-8 and the safe-text predicate

`bytes.decode("utf-8")` with strict error handling, as used by the
classifier and the node decoder.  The decoder below is standard RFC 3629
UTF-8: overlong forms, surrogates and values beyond U+10FFFF are
rejected, which is exactly CPython's strict decoder. -/

/-- A continuation byte `10xxxxxx`. -/
def utf8Cont (c : Nat) : Bool := 0x80 ≤ c && c ≤ 0xBF

/-- Admissible first continuation byte after a 3-byte leader. -/
def utf8Cont3 (b c : Nat) : Bool :=
  if b = 0xE0 then 0xA0 ≤ c && c ≤ 0xBF
  else if b = 0xED then 0x80 ≤ c && c ≤ 0x9F
  else utf8Cont c

/-- Admissible first continuation byte after a 4-byte leader. -/
def utf8Cont4 (b c : Nat) : Bool :=
  if b = 0xF0 then 0x90 ≤ c && c ≤ 0xBF
  else if b = 0xF4 then 0x80 ≤ c && c ≤ 0x8F
  else utf8Cont c

/-- Strict UTF-8 decoding to a list of code points; `none` models the
`UnicodeDecodeError` branch. -/
def utf8Decode : List Nat → Option (List Nat)
  | [] => some []
  | b :: rest =>
    if b < 0x80 then (utf8Decode rest).map (b :: ·)
    else if 0xC2 ≤ b && b ≤ 0xDF then
      match rest with
      | c1 :: rest1 =>
        if utf8Cont c1 then
          (utf8Decode rest1).map (((b - 0xC0) * 64 + (c1 - 0x80)) :: ·)
        else none
      | [] => none
    else if 0xE0 ≤ b && b ≤ 0xEF then
      match rest with
      | c1 :: c2 :: rest2 =>
        if utf8Cont3 b c1 && utf8Cont c2 then
          (utf8Decode rest2).map
            (((b - 0xE0) * 4096 + (c1 - 0x80) * 64 + (c2 - 0x80)) :: ·)
        else none
      | _ => none
    else if 0xF0 ≤ b && b ≤ 0xF4 then
      match rest with
      | c1 :: c2 :: c3 :: rest3 =>
        if utf8Cont4 b c1 && utf8Cont c2 && utf8Cont c3 then
          (utf8Decode rest3).map
            (((b - 0xF0) * 262144 + (c1 - 0x80) * 4096 +
              (c2 - 0x80) * 64 + (c3 - 0x80)) :: ·)
        else none
      | _ => none
    else none

/-- `_is_safe_text` over a decoded string (a list of code points).  The
Unicode `str.isprintable` test of the non-ASCII path depends on the
Unicode category tables of the Python runtime; it enters the model as the
parameter `printable`. -/
def is_safe_text (printable : Nat → Bool) (s : List Nat) : Bool :=
  if s.isEmpty then true
  else if s.all (· < 128) then
    s.all (fun c => (32 ≤ c && c ≤ 126) || c = 10 || c = 13 || c = 9)
  else s.all (fun c => printable c || c = 10 || c = 13 || c = 9)

/-! ## Byte-content classifier (`convert_bytes_recursive`)

Parameters `printable` (Unicode printability, see `is_safe_text`) and
`pyStrKey` (Python's `str(key)` rendering used when a plain dict key is
itself a dict or list — a presentation detail external to the wire
format) abstract the two pieces of Python-runtime behaviour the source
leans on.  The fuel decreases one step per recursion into a child value,
mirroring the Python call stack; at fuel 0 the value is returned
unconverted. -/

mutual

/-- `convert_bytes_recursive(data, mode, option)`. -/
def convert_bytes_recursive (printable : Nat → Bool)
    (pyStrKey : JValue → List Nat) (le : Bool) :
    Nat → String → JValue → JValue
  | 0, _, data => data
  | fuel + 1, mode, data =>
    if mode = "raw" then data
    else
      match data with
      | .jstruct fields =>
          .jstruct (convertFields printable pyStrKey le fuel mode fields)
      | .jmap entries =>
          .jmap (convertEntries printable pyStrKey le fuel mode entries [])
      | .jlist xs =>
          .jlist (convertList printable pyStrKey le fuel mode xs)
      | .jbytes bs =>
        if bs.length = 0 then .jstr []
        else if mode = "string" then
          match utf8Decode bs with
          | some cps =>
              if is_safe_text printable cps then .jstr cps else .jbytes bs
          | none => .jbytes bs
        else
          match utf8Decode bs with
          | some cps =>
              if is_safe_text printable cps then .jstr cps
              else convertProbe printable pyStrKey le fuel bs
          | none => convertProbe printable pyStrKey le fuel bs
      | v => v

/-- The "JCE probe" tail of the AUTO branch: when the first byte looks
like a plausible header, re-parse the blob with a fresh generic decoder
and classify the result; any decode failure falls back to the raw
bytes. -/
def convertProbe (printable : Nat → Bool)
    (pyStrKey : JValue → List Nat) (le : Bool) :
    Nat → List Nat → JValue
  | fuel, bs =>
    if 1 ≤ bs.length && (bs.headD 0) &&& 0x0F ≤ 13 then
      match generic_decode le fuel bs with
      | .ok parsed =>
          convert_bytes_recursive printable pyStrKey le fuel "auto"
            (.jstruct parsed)
      | .error _ => .jbytes bs
    else .jbytes bs

/-- The `JceDict` loop of the dict branch: integer keys pass through
unchanged, values are converted recursively. -/
def convertFields (printable : Nat → Bool)
    (pyStrKey : JValue → List Nat) (le : Bool) :
    Nat → String → List (Nat × JValue) → List (Nat × JValue)
  | _, _, [] => []
  | fuel, mode, (k, v) :: rest =>
    (k, convert_bytes_recursive printable pyStrKey le fuel mode v) ::
      convertFields printable pyStrKey le fuel mode rest

/-- The plain-dict loop: byte keys are opportunistically decoded to safe
text, values converted, dict/list keys rendered with `str`, and the pair
inserted with Python dict semantics. -/
def convertEntries (printable : Nat → Bool)
    (pyStrKey : JValue → List Nat) (le : Bool) :
    Nat → String → List (JValue × JValue) → List (JValue × JValue) →
    List (JValue × JValue)
  | _, _, [], acc => acc
  | fuel, mode, (k, v) :: rest, acc =>
    let k1 : JValue := match k with
      | .jbytes bs =>
        match utf8Decode bs with
        | some cps => if is_safe_text printable cps then .jstr cps else k
        | none => k
      | _ => k
    let val := convert_bytes_recursive printable pyStrKey le fuel mode v
    let k2 : JValue := match k1 with
      | .jmap _ => JValue.jstr (pyStrKey k1)
      | .jstruct _ => JValue.jstr (pyStrKey k1)
      | .jlist _ => JValue.jstr (pyStrKey k1)
      | _ => k1
    convertEntries printable pyStrKey le fuel mode rest (insertPair acc k2 val)

/-- The list branch. -/
def convertList (printable : Nat → Bool)
    (pyStrKey : JValue → List Nat) (le : Bool) :
    Nat → String → List JValue → List JValue
  | _, _, [] => []
  | fuel, mode, x :: rest =>
    convert_bytes_recursive printable pyStrKey le fuel mode x ::
      convertList printable pyStrKey le fuel mode rest

end

/-! ## `NodeDecoder` (`decoder.py`, classes `JceNode` and `NodeDecoder`) -/

mutual

/-- `JceNode`: tag (absent for untagged container elements), raw type id,
value, and the explicit length recorded for string/blob/container
types. -/
inductive JceNode where
  | mk (tag : Option Nat) (type_id : Nat) (value : NodeVal)
      (length : Option Int)

/-- The `value` slot of a `JceNode`, covering every Python type the node
decoder stores there. -/
inductive NodeVal where
  | prim (v : JValue)
  | nbytes (bs : List Nat)
  | nstr (cps : List Nat)
  | nodes (xs : List JceNode)
  | pairs (xs : List (JceNode × JceNode))

end

mutual

/-- `NodeDecoder._read_node`.  The simple-list branch re-parses the blob
with a fresh nested `NodeDecoder`; that nested `decode` call (loop plus
its `JcePartialDataError` handler, see `node_decode` below) is written
out inline here so the mutual block is structurally recursive on fuel;
any other nested failure falls back to the raw bytes, matching the
source's blanket `except Exception` around the re-parse. -/
def read_node (le : Bool) (d : List Nat) :
    Nat → Nat → Option Nat → Nat → Nat → Except JceError (JceNode × Nat)
  | 0, _, _, _, _ => .error .outOfFuel
  | fuel + 1, lim, tag, type_id, p =>
    if type_id = JCE_INT1 || type_id = JCE_INT2 || type_id = JCE_INT4 ||
        type_id = JCE_INT8 || type_id = JCE_FLOAT || type_id = JCE_DOUBLE ||
        type_id = JCE_ZERO_TAG then
      match read_value le d fuel lim type_id p with
      | .error e => .error e
      | .ok (v, p1) => .ok (.mk tag type_id (.prim v) none, p1)
    else if type_id = JCE_STRING1 then
      match rd (read_u8 d p) with
      | .error e => .error e
      | .ok (len, p1) =>
        match rd (read_bytes d p1 len) with
        | .error e => .error e
        | .ok (bs, p2) =>
          match utf8Decode bs with
          | some cps => .ok (.mk tag type_id (.nstr cps) (some len), p2)
          | none => .ok (.mk tag type_id (.nbytes bs) (some len), p2)
    else if type_id = JCE_STRING4 then
      match rd (read_int_w 4 le d p) with
      | .error e => .error e
      | .ok (len, p1) =>
        if len < 0 then .error .malformedData
        else if len > (MAX_STRING_LENGTH : Int) then .error .malformedData
        else
          match rd (read_bytes d p1 len) with
          | .error e => .error e
          | .ok (bs, p2) =>
            match utf8Decode bs with
            | some cps => .ok (.mk tag type_id (.nstr cps) (some len), p2)
            | none => .ok (.mk tag type_id (.nbytes bs) (some len), p2)
    else if type_id = JCE_SIMPLE_LIST then
      match read_head d p with
      | .error e => .error e
      | .ok ((_tag, t), p1) =>
        if t ≠ 0 then .error .malformedData
        else
          match read_integer_generic le d fuel lim p1 with
          | .error e => .error e
          | .ok (len, p2) =>
            match rd (read_bytes d p2 (len : Int)) with
            | .error e => .error e
            | .ok (bs, p3) =>
              if 0 < bs.length && (bs.headD 0) &&& 0x0F ≤ 13 then
                match node_loop le bs fuel 100 [] 0 with
                | (.ok _, sub) =>
                  if sub.isEmpty then
                    .ok (.mk tag type_id (.nbytes bs) (some (len : Int)), p3)
                  else .ok (.mk tag type_id (.nodes sub) (some (len : Int)), p3)
                | (.error .partialData, sub) =>
                  if sub.isEmpty then
                    .ok (.mk tag type_id (.nbytes bs) (some (len : Int)), p3)
                  else .ok (.mk tag type_id (.nodes sub) (some (len : Int)), p3)
                | (.error _, _) =>
                    .ok (.mk tag type_id (.nbytes bs) (some (len : Int)), p3)
              else .ok (.mk tag type_id (.nbytes bs) (some (len : Int)), p3)
    else if type_id = JCE_LIST then
      match read_integer_generic le d fuel lim p with
      | .error e => .error e
      | .ok (len, p1) =>
        match node_list_elems le d fuel lim len [] p1 with
        | .error e => .error e
        | .ok (xs, p2) => .ok (.mk tag type_id (.nodes xs) (some (len : Int)), p2)
    else if type_id = JCE_MAP then
      match read_integer_generic le d fuel lim p with
      | .error e => .error e
      | .ok (len, p1) =>
        match node_map_entries le d fuel lim len [] p1 with
        | .error e => .error e
        | .ok (xs, p2) => .ok (.mk tag type_id (.pairs xs) (some (len : Int)), p2)
    else if type_id = JCE_STRUCT_BEGIN then
      match node_struct_fields le d fuel lim [] p with
      | .error e => .error e
      | .ok (xs, p1) => .ok (.mk tag type_id (.nodes xs) none, p1)
    else .error .malformedData
termination_by structural fuel => fuel

def node_list_elems (le : Bool) (d : List Nat) :
    Nat → Nat → Nat → List JceNode → Nat →
    Except JceError (List JceNode × Nat)
  | 0, _, _, _, _ => .error .outOfFuel
  | fuel + 1, lim, len, acc, p =>
    match len with
    | 0 => .ok (acc, p)
    | len' + 1 =>
      match read_head d p with
      | .error e => .error e
      | .ok ((_tag, t), p1) =>
        match read_node le d fuel lim none t p1 with
        | .error e => .error e
        | .ok (n, p2) => node_list_elems le d fuel lim len' (acc ++ [n]) p2
termination_by structural fuel => fuel

def node_map_entries (le : Bool) (d : List Nat) :
    Nat → Nat → Nat → List (JceNode × JceNode) → Nat →
    Except JceError (List (JceNode × JceNode) × Nat)
  | 0, _, _, _, _ => .error .outOfFuel
  | fuel + 1, lim, len, acc, p =>
    match len with
    | 0 => .ok (acc, p)
    | len' + 1 =>
      match read_head d p with
      | .error e => .error e
      | .ok ((kt, ktype), p1) =>
        match read_node le d fuel lim (some kt) ktype p1 with
        | .error e => .error e
        | .ok (k, p2) =>
          match read_head d p2 with
          | .error e => .error e
          | .ok ((vt, vtype), p3) =>
            match read_node le d fuel lim (some vt) vtype p3 with
            | .error e => .error e
            | .ok (v, p4) =>
              node_map_entries le d fuel lim len' (acc ++ [(k, v)]) p4
termination_by structural fuel => fuel

def node_struct_fields (le : Bool) (d : List Nat) :
    Nat → Nat → List JceNode → Nat → Except JceError (List JceNode × Nat)
  | 0, _, _, _ => .error .outOfFuel
  | fuel + 1, lim, acc, p =>
    match rd (peek_u8 d p) with
    | .error e => .error e
    | .ok (b, _) =>
      if b &&& 0x0F = JCE_STRUCT_END then
        match rd (read_u8 d p) with
        | .error e => .error e
        | .ok (_, p1) => .ok (acc, p1)
      else
        match read_head d p with
        | .error e => .error e
        | .ok ((t_tag, t_type), p1) =>
          match read_node le d fuel lim (some t_tag) t_type p1 with
          | .error e => .error e
          | .ok (n, p2) => node_struct_fields le d fuel lim (acc ++ [n]) p2
termination_by structural fuel => fuel

/-- The `while not eof` loop of `NodeDecoder.decode`, returning the loop
status together with the nodes accumulated so far (the Python list
survives the exception handler). -/
def node_loop (le : Bool) (d : List Nat) :
    Nat → Nat → List JceNode → Nat → (Except JceError Unit) × List JceNode
  | 0, _, acc, _ => (.error .outOfFuel, acc)
  | fuel + 1, lim, acc, p =>
    if readerEof d p then (.ok (), acc)
    else
      match read_head d p with
      | .error e => (.error e, acc)
      | .ok ((tag, type_id), p1) =>
        if type_id = JCE_STRUCT_END then (.ok (), acc)
        else
          match read_node le d fuel lim (some tag) type_id p1 with
          | .error e => (.error e, acc)
          | .ok (n, p2) => node_loop le d fuel lim (acc ++ [n]) p2
termination_by structural fuel => fuel

end

/-- `NodeDecoder.decode`: swallow `JcePartialDataError` at the top level,
returning the nodes decoded so far; re-raise everything else. -/
def node_decode (le : Bool) (d : List Nat) (fuel : Nat) :
    Except JceError (List JceNode) :=
  match node_loop le d fuel 100 [] 0 with
  | (.ok _, ns) => .ok ns
  | (.error .partialData, ns) => .ok ns
  | (.error e, _) => .error e

/-! ## Header writer (spec-modelled) -/

/-- Modelled from the spec: the header encoder lives in `jce/encoder.py`,
which is not among the available sources; spec section 4.2 defines it as
the exact inverse of `_read_head`: "if tag ≤ 14, pack into high nibble;
else emit 0xF0|type then the tag as a separate byte".  Emitting a value
as one byte keeps its low 8 bits. -/
def write_head (tag type_id : Nat) : List Nat :=
  if tag ≤ 14 then [((tag <<< 4) ||| type_id) % 256]
  else [(0xF0 ||| type_id) % 256, tag % 256]

/-- Read-back check for a written header: reading at position 0 must
yield the original pair and consume the whole encoding. -/
def head_roundtrip (tag type_id : Nat) : Bool :=
  match read_head (write_head tag type_id) 0 with
  | .ok ((t, y), n) => t == tag && y == type_id && n == (write_head tag type_id).length
  | .error _ => false

/-! ## Helper lemmas about the reader primitives and the decoder

These support the claim theorems below: exact characterizations of the
successful reader primitives, independence of successful integer reads
from the recursion limit, the lock-step correspondence between the
decode and skip dispatches, and the behaviour of every decoder function
on a truncated buffer. -/

/-! Helper characterizations of the reader primitives. -/

theorem rd_eq_ok {α : Type} {r : (Except JceError α) × Nat} {a : α} {q : Nat} :
    rd r = .ok (a, q) ↔ r = (.ok a, q) := by
  rcases r with ⟨x, n⟩
  cases x <;> simp [rd]

theorem rd_read_u8_ok {d : List Nat} {p b p1 : Nat}
    (h : rd (read_u8 d p) = .ok (b, p1)) :
    d[p]? = some b ∧ p1 = p + 1 ∧ p < d.length := by
  rw [rd_eq_ok] at h
  unfold read_u8 at h
  cases hd : d[p]? with
  | some x =>
    rw [hd] at h
    simp only [Prod.mk.injEq, Except.ok.injEq] at h
    obtain ⟨h1, h2⟩ := h
    exact ⟨by rw [h1], h2.symm, (List.getElem?_eq_some.mp hd).1⟩
  | none => rw [hd] at h; simp at h

theorem rd_read_int1_ok {d : List Nat} {p : Nat} {x : Int} {p1 : Nat}
    (h : rd (read_int1 d p) = .ok (x, p1)) :
    p1 = p + 1 ∧ p < d.length := by
  rw [rd_eq_ok] at h
  unfold read_int1 at h
  cases hd : d[p]? with
  | some b =>
    rw [hd] at h
    simp only [Prod.mk.injEq, Except.ok.injEq] at h
    exact ⟨h.2.symm, (List.getElem?_eq_some.mp hd).1⟩
  | none => rw [hd] at h; simp at h

theorem rd_read_bytes_ok {d : List Nat} {p : Nat} {n : Int} {bs : List Nat}
    {q : Nat} (h : rd (read_bytes d p n) = .ok (bs, q)) :
    0 ≤ n ∧ q = p + n.toNat ∧ q ≤ d.length ∧ bs = (d.drop p).take n.toNat := by
  rw [rd_eq_ok] at h
  unfold read_bytes at h
  split at h
  · simp at h
  · split at h
    · simp at h
    · simp only [Prod.mk.injEq, Except.ok.injEq] at h
      obtain ⟨h1, h2⟩ := h
      refine ⟨by omega, h2.symm, by omega, h1.symm⟩

theorem rd_read_int_w_ok {w : Nat} {le : Bool} {d : List Nat} {p : Nat}
    {x : Int} {q : Nat} (h : rd (read_int_w w le d p) = .ok (x, q)) :
    q = p + w ∧ q ≤ d.length := by
  rw [rd_eq_ok] at h
  unfold read_int_w at h
  split at h
  · simp at h
  · simp only [Prod.mk.injEq, Except.ok.injEq] at h
    exact ⟨h.2.symm, by omega⟩

theorem rd_read_float_ok {le : Bool} {d : List Nat} {p : Nat} {x q : Nat}
    (h : rd (read_float le d p) = .ok (x, q)) :
    q = p + 4 ∧ q ≤ d.length := by
  rw [rd_eq_ok] at h
  unfold read_float at h
  split at h
  · simp at h
  · dsimp only at h
    split at h
    · simp only [Prod.mk.injEq, Except.ok.injEq] at h
      exact ⟨h.2.symm, by omega⟩
    · split at h
      · simp only [Prod.mk.injEq, Except.ok.injEq] at h
        exact ⟨h.2.symm, by omega⟩
      · split at h
        · simp only [Prod.mk.injEq, Except.ok.injEq] at h
          exact ⟨h.2.symm, by omega⟩
        · simp only [Prod.mk.injEq, Except.ok.injEq] at h
          exact ⟨h.2.symm, by omega⟩

theorem rd_read_double_ok {le : Bool} {d : List Nat} {p : Nat} {x q : Nat}
    (h : rd (read_double le d p) = .ok (x, q)) :
    q = p + 8 ∧ q ≤ d.length := by
  rw [rd_eq_ok] at h
  unfold read_double at h
  split at h
  · simp at h
  · dsimp only at h
    split at h
    · simp only [Prod.mk.injEq, Except.ok.injEq] at h
      exact ⟨h.2.symm, by omega⟩
    · split at h
      · simp only [Prod.mk.injEq, Except.ok.injEq] at h
        exact ⟨h.2.symm, by omega⟩
      · split at h
        · simp only [Prod.mk.injEq, Except.ok.injEq] at h
          exact ⟨h.2.symm, by omega⟩
        · split at h
          · simp only [Prod.mk.injEq, Except.ok.injEq] at h
            exact ⟨h.2.symm, by omega⟩
          · simp only [Prod.mk.injEq, Except.ok.injEq] at h
            exact ⟨h.2.symm, by omega⟩

theorem skipBytes_of_bounds {d : List Nat} {p : Nat} {n : Int}
    (h0 : 0 ≤ n) (h1 : p + n.toNat ≤ d.length) :
    skipBytes d p n = (.ok (), p + n.toNat) := by
  unfold skipBytes
  rw [if_neg (by omega), if_neg (by omega)]

/-! Successful decodes of integer values do not depend on the current
recursion limit: only container branches consult it, and those never
produce an integer. -/

theorem read_value_jint_lim {le : Bool} {d : List Nat} {fuel lim ty p : Nat}
    {i : Int} {p2 : Nat}
    (h : read_value le d fuel lim ty p = .ok (.jint i, p2)) (lim' : Nat) :
    read_value le d fuel lim' ty p = .ok (.jint i, p2) := by
  cases fuel with
  | zero => simp [read_value] at h
  | succ fuel =>
    by_cases h9 : ty = JCE_LIST
    · subst h9
      simp only [read_value] at h
      norm_num [JCE_ZERO_TAG, JCE_INT1, JCE_INT2, JCE_INT4, JCE_INT8,
        JCE_FLOAT, JCE_DOUBLE, JCE_STRING1, JCE_STRING4, JCE_LIST] at h
      cases hr : read_list le d fuel lim p with
      | error e => rw [hr] at h; simp [Except.map] at h
      | ok r => rw [hr] at h; simp [Except.map] at h
    by_cases h8 : ty = JCE_MAP
    · subst h8
      simp only [read_value] at h
      norm_num [JCE_ZERO_TAG, JCE_INT1, JCE_INT2, JCE_INT4, JCE_INT8,
        JCE_FLOAT, JCE_DOUBLE, JCE_STRING1, JCE_STRING4, JCE_LIST,
        JCE_MAP] at h
      cases hr : read_map le d fuel lim p with
      | error e => rw [hr] at h; simp [Except.map] at h
      | ok r => rw [hr] at h; simp [Except.map] at h
    by_cases h10 : ty = JCE_STRUCT_BEGIN
    · subst h10
      simp only [read_value] at h
      norm_num [JCE_ZERO_TAG, JCE_INT1, JCE_INT2, JCE_INT4, JCE_INT8,
        JCE_FLOAT, JCE_DOUBLE, JCE_STRING1, JCE_STRING4, JCE_LIST,
        JCE_MAP, JCE_STRUCT_BEGIN] at h
      cases hr : read_struct le d fuel lim p with
      | error e => rw [hr] at h; simp [Except.map] at h
      | ok r => rw [hr] at h; simp [Except.map] at h
    by_cases h13 : ty = JCE_SIMPLE_LIST
    · subst h13
      simp only [read_value] at h
      norm_num [JCE_ZERO_TAG, JCE_INT1, JCE_INT2, JCE_INT4, JCE_INT8,
        JCE_FLOAT, JCE_DOUBLE, JCE_STRING1, JCE_STRING4, JCE_LIST,
        JCE_MAP, JCE_STRUCT_BEGIN, JCE_STRUCT_END, JCE_SIMPLE_LIST] at h
      cases hr : read_simple_list le d fuel lim p with
      | error e => rw [hr] at h; simp [Except.map] at h
      | ok r => rw [hr] at h; simp [Except.map] at h
    have heq : read_value le d (fuel + 1) lim' ty p =
        read_value le d (fuel + 1) lim ty p := by
      simp only [read_value, if_neg h9, if_neg h8, if_neg h10, if_neg h13]
    rw [heq]
    exact h

theorem read_integer_generic_lim {le : Bool} {d : List Nat}
    {fuel lim p n p' : Nat}
    (h : read_integer_generic le d fuel lim p = .ok (n, p')) (lim' : Nat) :
    read_integer_generic le d fuel lim' p = .ok (n, p') := by
  cases fuel with
  | zero => simp [read_integer_generic] at h
  | succ fuel =>
    simp only [read_integer_generic] at h ⊢
    cases hh : read_head d p with
    | error e => rw [hh] at h; simp at h
    | ok hd =>
      obtain ⟨⟨tag, ty⟩, p1⟩ := hd
      rw [hh] at h
      dsimp only at h ⊢
      cases hv : read_value le d fuel lim ty p1 with
      | error e => rw [hv] at h; simp at h
      | ok vr =>
        rw [hv] at h
        obtain ⟨v, p2⟩ := vr
        dsimp only at h
        cases v with
        | jint i =>
          rw [read_value_jint_lim hv lim']
          exact h
        | jfloat b => simp at h
        | jdouble b => simp at h
        | jbytes bs => simp at h
        | jstr cs => simp at h
        | jlist xs => simp at h
        | jtuple xs => simp at h
        | jmap xs => simp at h
        | jstruct xs => simp at h
        | jnone => simp at h

theorem skip_mirror (le : Bool) (d : List Nat) : ∀ fuel : Nat,
    (∀ lim ty p v p', read_value le d fuel lim ty p = .ok (v, p') →
      ∀ lim', skip_value le d fuel lim' ty p = .ok p') ∧
    (∀ lim p r p', read_list le d fuel lim p = .ok (r, p') →
      ∀ lim', skip_list le d fuel lim' p = .ok p') ∧
    (∀ lim n acc p r p', read_list_elems le d fuel lim n acc p = .ok (r, p') →
      ∀ lim', skip_list_elems le d fuel lim' n p = .ok p') ∧
    (∀ lim p r p', read_map le d fuel lim p = .ok (r, p') →
      ∀ lim', skip_map le d fuel lim' p = .ok p') ∧
    (∀ lim n acc p r p', read_map_entries le d fuel lim n acc p = .ok (r, p') →
      ∀ lim', skip_map_entries le d fuel lim' n p = .ok p') ∧
    (∀ lim p r p', read_struct le d fuel lim p = .ok (r, p') →
      ∀ lim', skip_struct le d fuel lim' p = .ok p') ∧
    (∀ lim acc p r p', read_struct_fields le d fuel lim acc p = .ok (r, p') →
      ∀ lim', skip_struct_fields le d fuel lim' p = .ok p') ∧
    (∀ lim p r p', read_simple_list le d fuel lim p = .ok (r, p') →
      ∀ lim', skip_simple_list le d fuel lim' p = .ok p') := by
  intro fuel
  induction fuel with
  | zero =>
    refine ⟨?_, ?_, ?_, ?_, ?_, ?_, ?_, ?_⟩
    · intro lim ty p v p' h; simp [read_value] at h
    · intro lim p r p' h; simp [read_list] at h
    · intro lim n acc p r p' h; simp [read_list_elems] at h
    · intro lim p r p' h; simp [read_map] at h
    · intro lim n acc p r p' h; simp [read_map_entries] at h
    · intro lim p r p' h; simp [read_struct] at h
    · intro lim acc p r p' h; simp [read_struct_fields] at h
    · intro lim p r p' h; simp [read_simple_list] at h
  | succ fuel ih =>
    obtain ⟨ihv, ihl, ihle, ihm, ihme, ihs, ihsf, ihsl⟩ := ih
    refine ⟨?_, ?_, ?_, ?_, ?_, ?_, ?_, ?_⟩
    -- read_value mirrors skip_value
    · intro lim ty p v p' h lim'
      by_cases ht12 : ty = JCE_ZERO_TAG
      · subst ht12
        simp only [read_value] at h
        simp only [skip_value]
        norm_num [JCE_ZERO_TAG, JCE_INT1, JCE_INT2, JCE_INT4, JCE_INT8, JCE_FLOAT,
        JCE_DOUBLE, JCE_STRING1, JCE_STRING4, JCE_LIST, JCE_MAP,
        JCE_STRUCT_BEGIN, JCE_STRUCT_END, JCE_SIMPLE_LIST] at h ⊢
        rw [h.2]
      by_cases ht0 : ty = JCE_INT1
      · subst ht0
        simp only [read_value] at h
        simp only [skip_value]
        norm_num [JCE_ZERO_TAG, JCE_INT1, JCE_INT2, JCE_INT4, JCE_INT8, JCE_FLOAT,
        JCE_DOUBLE, JCE_STRING1, JCE_STRING4, JCE_LIST, JCE_MAP,
        JCE_STRUCT_BEGIN, JCE_STRUCT_END, JCE_SIMPLE_LIST] at h ⊢
        cases hr : rd (read_int1 d p) with
        | error e => try rw [hr] at h; simp [Except.map] at h
        | ok xr =>
          obtain ⟨x, q⟩ := xr
          try rw [hr] at h
          simp only [Except.map, Except.ok.injEq, Prod.mk.injEq] at h
          obtain ⟨hq1, hq2⟩ := rd_read_int1_ok hr
          rw [skipBytes_of_bounds (by omega) (by omega)]
          simp [rd, Except.map]
          omega
      by_cases ht1 : ty = JCE_INT2
      · subst ht1
        simp only [read_value] at h
        simp only [skip_value]
        norm_num [JCE_ZERO_TAG, JCE_INT1, JCE_INT2, JCE_INT4, JCE_INT8, JCE_FLOAT,
        JCE_DOUBLE, JCE_STRING1, JCE_STRING4, JCE_LIST, JCE_MAP,
        JCE_STRUCT_BEGIN, JCE_STRUCT_END, JCE_SIMPLE_LIST] at h ⊢
        cases hr : rd (read_int_w 2 le d p) with
        | error e => try rw [hr] at h; simp [Except.map] at h
        | ok xr =>
          obtain ⟨x, q⟩ := xr
          try rw [hr] at h
          simp only [Except.map, Except.ok.injEq, Prod.mk.injEq] at h
          obtain ⟨hq1, hq2⟩ := rd_read_int_w_ok hr
          rw [skipBytes_of_bounds (by omega) (by omega)]
          simp [rd, Except.map]
          omega
      by_cases ht2 : ty = JCE_INT4
      · subst ht2
        simp only [read_value] at h
        simp only [skip_value]
        norm_num [JCE_ZERO_TAG, JCE_INT1, JCE_INT2, JCE_INT4, JCE_INT8, JCE_FLOAT,
        JCE_DOUBLE, JCE_STRING1, JCE_STRING4, JCE_LIST, JCE_MAP,
        JCE_STRUCT_BEGIN, JCE_STRUCT_END, JCE_SIMPLE_LIST] at h ⊢
        cases hr : rd (read_int_w 4 le d p) with
        | error e => try rw [hr] at h; simp [Except.map] at h
        | ok xr =>
          obtain ⟨x, q⟩ := xr
          try rw [hr] at h
          simp only [Except.map, Except.ok.injEq, Prod.mk.injEq] at h
          obtain ⟨hq1, hq2⟩ := rd_read_int_w_ok hr
          rw [skipBytes_of_bounds (by omega) (by omega)]
          simp [rd, Except.map]
          omega
      by_cases ht3 : ty = JCE_INT8
      · subst ht3
        simp only [read_value] at h
        simp only [skip_value]
        norm_num [JCE_ZERO_TAG, JCE_INT1, JCE_INT2, JCE_INT4, JCE_INT8, JCE_FLOAT,
        JCE_DOUBLE, JCE_STRING1, JCE_STRING4, JCE_LIST, JCE_MAP,
        JCE_STRUCT_BEGIN, JCE_STRUCT_END, JCE_SIMPLE_LIST] at h ⊢
        cases hr : rd (read_int_w 8 le d p) with
        | error e => try rw [hr] at h; simp [Except.map] at h
        | ok xr =>
          obtain ⟨x, q⟩ := xr
          try rw [hr] at h
          simp only [Except.map, Except.ok.injEq, Prod.mk.injEq] at h
          obtain ⟨hq1, hq2⟩ := rd_read_int_w_ok hr
          rw [skipBytes_of_bounds (by omega) (by omega)]
          simp [rd, Except.map]
          omega
      by_cases ht4 : ty = JCE_FLOAT
      · subst ht4
        simp only [read_value] at h
        simp only [skip_value]
        norm_num [JCE_ZERO_TAG, JCE_INT1, JCE_INT2, JCE_INT4, JCE_INT8, JCE_FLOAT,
        JCE_DOUBLE, JCE_STRING1, JCE_STRING4, JCE_LIST, JCE_MAP,
        JCE_STRUCT_BEGIN, JCE_STRUCT_END, JCE_SIMPLE_LIST] at h ⊢
        cases hr : rd (read_float le d p) with
        | error e => try rw [hr] at h; simp [Except.map] at h
        | ok xr =>
          obtain ⟨x, q⟩ := xr
          try rw [hr] at h
          simp only [Except.map, Except.ok.injEq, Prod.mk.injEq] at h
          obtain ⟨hq1, hq2⟩ := rd_read_float_ok hr
          rw [skipBytes_of_bounds (by omega) (by omega)]
          simp [rd, Except.map]
          omega
      by_cases ht5 : ty = JCE_DOUBLE
      · subst ht5
        simp only [read_value] at h
        simp only [skip_value]
        norm_num [JCE_ZERO_TAG, JCE_INT1, JCE_INT2, JCE_INT4, JCE_INT8, JCE_FLOAT,
        JCE_DOUBLE, JCE_STRING1, JCE_STRING4, JCE_LIST, JCE_MAP,
        JCE_STRUCT_BEGIN, JCE_STRUCT_END, JCE_SIMPLE_LIST] at h ⊢
        cases hr : rd (read_double le d p) with
        | error e => try rw [hr] at h; simp [Except.map] at h
        | ok xr =>
          obtain ⟨x, q⟩ := xr
          try rw [hr] at h
          simp only [Except.map, Except.ok.injEq, Prod.mk.injEq] at h
          obtain ⟨hq1, hq2⟩ := rd_read_double_ok hr
          rw [skipBytes_of_bounds (by omega) (by omega)]
          simp [rd, Except.map]
          omega
      by_cases ht6 : ty = JCE_STRING1
      · subst ht6
        simp only [read_value] at h
        simp only [skip_value]
        norm_num [JCE_ZERO_TAG, JCE_INT1, JCE_INT2, JCE_INT4, JCE_INT8, JCE_FLOAT,
        JCE_DOUBLE, JCE_STRING1, JCE_STRING4, JCE_LIST, JCE_MAP,
        JCE_STRUCT_BEGIN, JCE_STRUCT_END, JCE_SIMPLE_LIST] at h ⊢
        cases hr : rd (read_u8 d p) with
        | error e => try rw [hr] at h; simp at h
        | ok lr =>
          obtain ⟨len, p1⟩ := lr
          try rw [hr] at h ⊢
          try rw [hr] at h
          try rw [hr]
          try dsimp only at h ⊢
          cases hb : rd (read_bytes d p1 (len : Int)) with
          | error e => try rw [hb] at h; simp [Except.map] at h
          | ok br =>
            obtain ⟨bs, p2⟩ := br
            try rw [hb] at h
            simp only [Except.map, Except.ok.injEq, Prod.mk.injEq] at h
            obtain ⟨hn, hq, hle2, hbs⟩ := rd_read_bytes_ok hb
            rw [skipBytes_of_bounds hn (by omega)]
            simp [rd, Except.map]
            omega
      by_cases ht7 : ty = JCE_STRING4
      · subst ht7
        simp only [read_value] at h
        simp only [skip_value]
        norm_num [JCE_ZERO_TAG, JCE_INT1, JCE_INT2, JCE_INT4, JCE_INT8, JCE_FLOAT,
        JCE_DOUBLE, JCE_STRING1, JCE_STRING4, JCE_LIST, JCE_MAP,
        JCE_STRUCT_BEGIN, JCE_STRUCT_END, JCE_SIMPLE_LIST] at h ⊢
        cases hr : rd (read_int_w 4 le d p) with
        | error e => try rw [hr] at h; simp at h
        | ok lr =>
          obtain ⟨len, p1⟩ := lr
          try rw [hr] at h
          try rw [hr]
          try dsimp only at h ⊢
          by_cases hneg : len < 0
          · rw [if_pos hneg] at h
            simp at h
          rw [if_neg hneg] at h ⊢
          by_cases hbig : len > (MAX_STRING_LENGTH : Int)
          · rw [if_pos hbig] at h
            simp at h
          rw [if_neg hbig] at h ⊢
          cases hb : rd (read_bytes d p1 len) with
          | error e => try rw [hb] at h; simp [Except.map] at h
          | ok br =>
            obtain ⟨bs, p2⟩ := br
            try rw [hb] at h
            simp only [Except.map, Except.ok.injEq, Prod.mk.injEq] at h
            obtain ⟨hn, hq, hle2, hbs⟩ := rd_read_bytes_ok hb
            rw [skipBytes_of_bounds hn (by omega)]
            simp [rd, Except.map]
            omega
      by_cases ht9 : ty = JCE_LIST
      · subst ht9
        simp only [read_value] at h
        simp only [skip_value]
        norm_num [JCE_ZERO_TAG, JCE_INT1, JCE_INT2, JCE_INT4, JCE_INT8, JCE_FLOAT,
        JCE_DOUBLE, JCE_STRING1, JCE_STRING4, JCE_LIST, JCE_MAP,
        JCE_STRUCT_BEGIN, JCE_STRUCT_END, JCE_SIMPLE_LIST] at h ⊢
        cases hr : read_list le d fuel lim p with
        | error e => try rw [hr] at h; simp [Except.map] at h
        | ok xr =>
          obtain ⟨xs, q⟩ := xr
          try rw [hr] at h
          simp only [Except.map, Except.ok.injEq, Prod.mk.injEq] at h
          rw [ihl lim p xs q hr lim']
          rw [h.2]
      by_cases ht8 : ty = JCE_MAP
      · subst ht8
        simp only [read_value] at h
        simp only [skip_value]
        norm_num [JCE_ZERO_TAG, JCE_INT1, JCE_INT2, JCE_INT4, JCE_INT8, JCE_FLOAT,
        JCE_DOUBLE, JCE_STRING1, JCE_STRING4, JCE_LIST, JCE_MAP,
        JCE_STRUCT_BEGIN, JCE_STRUCT_END, JCE_SIMPLE_LIST] at h ⊢
        cases hr : read_map le d fuel lim p with
        | error e => try rw [hr] at h; simp [Except.map] at h
        | ok xr =>
          obtain ⟨xs, q⟩ := xr
          try rw [hr] at h
          simp only [Except.map, Except.ok.injEq, Prod.mk.injEq] at h
          rw [ihm lim p xs q hr lim']
          rw [h.2]
      by_cases ht10 : ty = JCE_STRUCT_BEGIN
      · subst ht10
        simp only [read_value] at h
        simp only [skip_value]
        norm_num [JCE_ZERO_TAG, JCE_INT1, JCE_INT2, JCE_INT4, JCE_INT8, JCE_FLOAT,
        JCE_DOUBLE, JCE_STRING1, JCE_STRING4, JCE_LIST, JCE_MAP,
        JCE_STRUCT_BEGIN, JCE_STRUCT_END, JCE_SIMPLE_LIST] at h ⊢
        cases hr : read_struct le d fuel lim p with
        | error e => try rw [hr] at h; simp [Except.map] at h
        | ok xr =>
          obtain ⟨xs, q⟩ := xr
          try rw [hr] at h
          simp only [Except.map, Except.ok.injEq, Prod.mk.injEq] at h
          rw [ihs lim p xs q hr lim']
          rw [h.2]
      by_cases ht11 : ty = JCE_STRUCT_END
      · subst ht11
        simp only [read_value] at h
        simp only [skip_value]
        norm_num [JCE_ZERO_TAG, JCE_INT1, JCE_INT2, JCE_INT4, JCE_INT8, JCE_FLOAT,
        JCE_DOUBLE, JCE_STRING1, JCE_STRING4, JCE_LIST, JCE_MAP,
        JCE_STRUCT_BEGIN, JCE_STRUCT_END, JCE_SIMPLE_LIST] at h ⊢
        rw [h.2]
      by_cases ht13 : ty = JCE_SIMPLE_LIST
      · subst ht13
        simp only [read_value] at h
        simp only [skip_value]
        norm_num [JCE_ZERO_TAG, JCE_INT1, JCE_INT2, JCE_INT4, JCE_INT8, JCE_FLOAT,
        JCE_DOUBLE, JCE_STRING1, JCE_STRING4, JCE_LIST, JCE_MAP,
        JCE_STRUCT_BEGIN, JCE_STRUCT_END, JCE_SIMPLE_LIST] at h ⊢
        cases hr : read_simple_list le d fuel lim p with
        | error e => try rw [hr] at h; simp [Except.map] at h
        | ok xr =>
          obtain ⟨xs, q⟩ := xr
          try rw [hr] at h
          simp only [Except.map, Except.ok.injEq, Prod.mk.injEq] at h
          rw [ihsl lim p xs q hr lim']
          rw [h.2]
      simp only [read_value, if_neg ht12, if_neg ht0, if_neg ht1, if_neg ht2,
        if_neg ht3, if_neg ht4, if_neg ht5, if_neg ht6, if_neg ht7, if_neg ht9,
        if_neg ht8, if_neg ht10, if_neg ht11, if_neg ht13] at h
      simp at h
    -- read_list mirrors skip_list
    · intro lim p r p' h lim'
      simp only [read_list] at h
      simp only [skip_list]
      cases hc : check_recursion lim with
      | error e => try rw [hc] at h; simp at h
      | ok u =>
        try rw [hc] at h
        try dsimp only at h
        cases hg : read_integer_generic le d fuel (lim - 1) p with
        | error e => try rw [hg] at h; simp at h
        | ok gr =>
          obtain ⟨size, p1⟩ := gr
          try rw [hg] at h
          try dsimp only at h
          rw [read_integer_generic_lim hg lim']
          exact ihle (lim - 1) size [] p1 r p' h lim'
    -- read_list_elems mirrors skip_list_elems
    · intro lim n acc p r p' h lim'
      simp only [read_list_elems] at h
      simp only [skip_list_elems]
      cases n with
      | zero =>
        simp only [Except.ok.injEq, Prod.mk.injEq] at h
        rw [h.2]
      | succ n' =>
        cases hh : read_head d p with
        | error e => try rw [hh] at h; simp at h
        | ok hd =>
          obtain ⟨⟨tag, ty⟩, p1⟩ := hd
          try rw [hh] at h
          try rw [hh]
          try dsimp only at h ⊢
          cases hv : read_value le d fuel lim ty p1 with
          | error e => try rw [hv] at h; simp at h
          | ok vr =>
            obtain ⟨v, p2⟩ := vr
            try rw [hv] at h
            try dsimp only at h
            rw [ihv lim ty p1 v p2 hv lim']
            exact ihle lim n' (acc ++ [v]) p2 r p' h lim'
    -- read_map mirrors skip_map
    · intro lim p r p' h lim'
      simp only [read_map] at h
      simp only [skip_map]
      cases hc : check_recursion lim with
      | error e => try rw [hc] at h; simp at h
      | ok u =>
        try rw [hc] at h
        try dsimp only at h
        cases hg : read_integer_generic le d fuel (lim - 1) p with
        | error e => try rw [hg] at h; simp at h
        | ok gr =>
          obtain ⟨size, p1⟩ := gr
          try rw [hg] at h
          try dsimp only at h
          rw [read_integer_generic_lim hg lim']
          exact ihme (lim - 1) size [] p1 r p' h lim'
    -- read_map_entries mirrors skip_map_entries
    · intro lim n acc p r p' h lim'
      simp only [read_map_entries] at h
      simp only [skip_map_entries]
      cases n with
      | zero =>
        simp only [Except.ok.injEq, Prod.mk.injEq] at h
        rw [h.2]
      | succ n' =>
        cases hh : read_head d p with
        | error e => try rw [hh] at h; simp at h
        | ok hd =>
          obtain ⟨⟨ktag, ktype⟩, p1⟩ := hd
          try rw [hh] at h
          try rw [hh]
          try dsimp only at h ⊢
          by_cases hk : ktag ≠ 0
          · rw [if_pos hk] at h
            simp at h
          rw [if_neg hk] at h
          cases hv : read_value le d fuel lim ktype p1 with
          | error e => try rw [hv] at h; simp at h
          | ok vr =>
            obtain ⟨key, p2⟩ := vr
            try rw [hv] at h
            try dsimp only at h
            rw [ihv lim ktype p1 key p2 hv lim']
            dsimp only
            cases hh2 : read_head d p2 with
            | error e => try rw [hh2] at h; simp at h
            | ok hd2 =>
              obtain ⟨⟨vtag, vtype⟩, p3⟩ := hd2
              try rw [hh2] at h
              try rw [hh2]
              try dsimp only at h ⊢
              by_cases hvt : vtag ≠ 1
              · rw [if_pos hvt] at h
                simp at h
              rw [if_neg hvt] at h
              cases hv2 : read_value le d fuel lim vtype p3 with
              | error e => try rw [hv2] at h; simp at h
              | ok vr2 =>
                obtain ⟨val, p4⟩ := vr2
                try rw [hv2] at h
                try dsimp only at h
                rw [ihv lim vtype p3 val p4 hv2 lim']
                exact ihme lim n' _ p4 r p' h lim'
    -- read_struct mirrors skip_struct
    · intro lim p r p' h lim'
      simp only [read_struct] at h
      simp only [skip_struct]
      cases hc : check_recursion lim with
      | error e => try rw [hc] at h; simp at h
      | ok u =>
        try rw [hc] at h
        try dsimp only at h
        exact ihsf (lim - 1) [] p r p' h lim'
    -- read_struct_fields mirrors skip_struct_fields
    · intro lim acc p r p' h lim'
      simp only [read_struct_fields] at h
      simp only [skip_struct_fields]
      cases hp : rd (peek_u8 d p) with
      | error e => try rw [hp] at h; simp at h
      | ok br =>
        obtain ⟨b, q⟩ := br
        try rw [hp] at h
        try rw [hp]
        try dsimp only at h ⊢
        by_cases hb15 : b &&& 0x0F = JCE_STRUCT_END
        · rw [if_pos hb15] at h ⊢
          cases hu : rd (read_u8 d p) with
          | error e => try rw [hu] at h; simp at h
          | ok ur =>
            obtain ⟨x, q1⟩ := ur
            try rw [hu] at h
            try rw [hu]
            try dsimp only at h ⊢
            simp only [Except.ok.injEq, Prod.mk.injEq] at h
            rw [h.2]
        · rw [if_neg hb15] at h ⊢
          cases hh : read_head d p with
          | error e => try rw [hh] at h; simp at h
          | ok hd =>
            obtain ⟨⟨tag, ty⟩, p1⟩ := hd
            try rw [hh] at h
            try rw [hh]
            try dsimp only at h ⊢
            cases hv : read_value le d fuel lim ty p1 with
            | error e => try rw [hv] at h; simp at h
            | ok vr =>
              obtain ⟨v, p2⟩ := vr
              try rw [hv] at h
              try dsimp only at h
              rw [ihv lim ty p1 v p2 hv lim']
              exact ihsf lim _ p2 r p' h lim'
    -- read_simple_list mirrors skip_simple_list
    · intro lim p r p' h lim'
      simp only [read_simple_list] at h
      simp only [skip_simple_list]
      cases hh : read_head d p with
      | error e => try rw [hh] at h; simp at h
      | ok hd =>
        obtain ⟨⟨tag, ty⟩, p1⟩ := hd
        try rw [hh] at h
        try rw [hh]
        try dsimp only at h ⊢
        by_cases hty : ty ≠ JCE_INT1
        · rw [if_pos hty] at h
          simp at h
        rw [if_neg hty] at h
        cases hg : read_integer_generic le d fuel lim p1 with
        | error e => try rw [hg] at h; simp at h
        | ok gr =>
          obtain ⟨len, p2⟩ := gr
          try rw [hg] at h
          try dsimp only at h
          rw [read_integer_generic_lim hg lim']
          dsimp only
          cases hb : rd (read_bytes d p2 (len : Int)) with
          | error e => try rw [hb] at h; simp at h
          | ok br =>
            obtain ⟨bs, p3⟩ := br
            try rw [hb] at h
            simp only [Except.ok.injEq, Prod.mk.injEq] at h
            obtain ⟨hn, hq, hle2, hbs⟩ := rd_read_bytes_ok hb
            rw [skipBytes_of_bounds hn (by omega)]
            simp [rd, Except.map]
            omega

theorem take_slice {d : List Nat} {p n t : Nat} (h : p + n ≤ t) :
    ((d.take t).drop p).take n = (d.drop p).take n := by
  rw [List.drop_take, List.take_take, Nat.min_eq_left (by omega)]

theorem take_getElem_lt {d : List Nat} {p t : Nat} (h : p < t) :
    (d.take t)[p]? = d[p]? :=
  List.getElem?_take_of_lt h

theorem take_getElem_ge {d : List Nat} {p t : Nat} (h : t ≤ p) :
    (d.take t)[p]? = none :=
  List.getElem?_eq_none (by simp [List.length_take]; omega)

theorem rd_read_u8_take {d : List Nat} {p b p1 : Nat}
    (h : rd (read_u8 d p) = .ok (b, p1)) (t : Nat) :
    (p1 ≤ t → rd (read_u8 (d.take t) p) = .ok (b, p1)) ∧
    (t < p1 → rd (read_u8 (d.take t) p) = .error .partialData) := by
  obtain ⟨hd, hp1, hlen⟩ := rd_read_u8_ok h
  constructor
  · intro ht
    unfold read_u8
    rw [take_getElem_lt (by omega), hd]
    simp [rd, hp1]
  · intro ht
    unfold read_u8
    rw [take_getElem_ge (by omega)]
    simp [rd]

theorem rd_peek_u8_ok {d : List Nat} {p b q : Nat}
    (h : rd (peek_u8 d p) = .ok (b, q)) :
    d[p]? = some b ∧ q = p ∧ p < d.length := by
  rw [rd_eq_ok] at h
  unfold peek_u8 at h
  cases hd : d[p]? with
  | some x =>
    rw [hd] at h
    simp only [Prod.mk.injEq, Except.ok.injEq] at h
    obtain ⟨h1, h2⟩ := h
    exact ⟨by rw [h1], h2.symm, (List.getElem?_eq_some.mp hd).1⟩
  | none => rw [hd] at h; simp at h

theorem rd_peek_u8_take {d : List Nat} {p b q : Nat}
    (h : rd (peek_u8 d p) = .ok (b, q)) (t : Nat) :
    (p + 1 ≤ t → rd (peek_u8 (d.take t) p) = .ok (b, q)) ∧
    (t < p + 1 → rd (peek_u8 (d.take t) p) = .error .partialData) := by
  obtain ⟨hd, hq, hlen⟩ := rd_peek_u8_ok h
  constructor
  · intro ht
    unfold peek_u8
    rw [take_getElem_lt (by omega), hd]
    simp [rd, hq]
  · intro ht
    unfold peek_u8
    rw [take_getElem_ge (by omega)]
    simp [rd]

theorem rd_read_int1_take {d : List Nat} {p : Nat} {x : Int} {p1 : Nat}
    (h : rd (read_int1 d p) = .ok (x, p1)) (t : Nat) :
    (p1 ≤ t → rd (read_int1 (d.take t) p) = .ok (x, p1)) ∧
    (t < p1 → rd (read_int1 (d.take t) p) = .error .partialData) := by
  obtain ⟨hp1, hlen⟩ := rd_read_int1_ok h
  rw [rd_eq_ok] at h
  unfold read_int1 at h
  constructor
  · intro ht
    unfold read_int1
    rw [take_getElem_lt (by omega)]
    cases hd : d[p]? with
    | some v => rw [hd] at h; rw [rd_eq_ok]; exact h
    | none => rw [hd] at h; simp at h
  · intro ht
    unfold read_int1
    rw [take_getElem_ge (by omega)]
    simp [rd]

theorem rd_read_bytes_take {d : List Nat} {p : Nat} {n : Int}
    {bs : List Nat} {q : Nat}
    (h : rd (read_bytes d p n) = .ok (bs, q)) (t : Nat) :
    (q ≤ t → rd (read_bytes (d.take t) p n) = .ok (bs, q)) ∧
    (t < q → rd (read_bytes (d.take t) p n) = .error .partialData) := by
  obtain ⟨hn, hq, hlen, hbs⟩ := rd_read_bytes_ok h
  constructor
  · intro ht
    unfold read_bytes
    rw [if_neg (by omega), if_neg (by simp [List.length_take]; omega)]
    rw [take_slice (by omega)]
    simp [rd, hbs, hq]
  · intro ht
    unfold read_bytes
    rw [if_neg (by omega), if_pos (by simp [List.length_take]; omega)]
    simp [rd]

theorem rd_read_int_w_take {w : Nat} {le : Bool} {d : List Nat} {p : Nat}
    {x : Int} {q : Nat}
    (h : rd (read_int_w w le d p) = .ok (x, q)) (t : Nat) :
    (q ≤ t → rd (read_int_w w le (d.take t) p) = .ok (x, q)) ∧
    (t < q → rd (read_int_w w le (d.take t) p) = .error .partialData) := by
  obtain ⟨hq, hlen⟩ := rd_read_int_w_ok h
  rw [rd_eq_ok] at h
  unfold read_int_w at h
  rw [if_neg (by omega)] at h
  constructor
  · intro ht
    unfold read_int_w
    rw [if_neg (by simp [List.length_take]; omega)]
    rw [rd_eq_ok]
    rw [take_slice (by omega)]
    exact h
  · intro ht
    unfold read_int_w
    rw [if_pos (by simp [List.length_take]; omega)]
    simp [rd]

theorem rd_read_float_take {le : Bool} {d : List Nat} {p : Nat} {x q : Nat}
    (h : rd (read_float le d p) = .ok (x, q)) (t : Nat) :
    (q ≤ t → rd (read_float le (d.take t) p) = .ok (x, q)) ∧
    (t < q → rd (read_float le (d.take t) p) = .error .partialData) := by
  obtain ⟨hq, hlen⟩ := rd_read_float_ok h
  rw [rd_eq_ok] at h
  unfold read_float at h
  rw [if_neg (by omega)] at h
  constructor
  · intro ht
    unfold read_float
    rw [if_neg (by simp [List.length_take]; omega)]
    rw [rd_eq_ok]
    rw [take_slice (by omega)]
    exact h
  · intro ht
    unfold read_float
    rw [if_pos (by simp [List.length_take]; omega)]
    simp [rd]

theorem rd_read_double_take {le : Bool} {d : List Nat} {p : Nat} {x q : Nat}
    (h : rd (read_double le d p) = .ok (x, q)) (t : Nat) :
    (q ≤ t → rd (read_double le (d.take t) p) = .ok (x, q)) ∧
    (t < q → rd (read_double le (d.take t) p) = .error .partialData) := by
  obtain ⟨hq, hlen⟩ := rd_read_double_ok h
  rw [rd_eq_ok] at h
  unfold read_double at h
  rw [if_neg (by omega)] at h
  constructor
  · intro ht
    unfold read_double
    rw [if_neg (by simp [List.length_take]; omega)]
    rw [rd_eq_ok]
    rw [take_slice (by omega)]
    exact h
  · intro ht
    unfold read_double
    rw [if_pos (by simp [List.length_take]; omega)]
    simp [rd]

theorem read_head_ok {d : List Nat} {p tag ty p1 : Nat}
    (h : read_head d p = .ok ((tag, ty), p1)) : p < p1 ∧ p1 ≤ d.length := by
  unfold read_head at h
  cases hu : rd (read_u8 d p) with
  | error e => rw [hu] at h; simp at h
  | ok br =>
    obtain ⟨b, q⟩ := br
    try rw [hu] at h
    try dsimp only at h
    obtain ⟨hd, hq, hlen⟩ := rd_read_u8_ok hu
    split_ifs at h
    · cases hu2 : rd (read_u8 d q) with
      | error e => rw [hu2] at h; simp at h
      | ok br2 =>
        obtain ⟨b2, q2⟩ := br2
        try rw [hu2] at h
        try dsimp only at h
        obtain ⟨hd2, hq2, hlen2⟩ := rd_read_u8_ok hu2
        simp only [Except.ok.injEq, Prod.mk.injEq] at h
        omega
    · simp only [Except.ok.injEq, Prod.mk.injEq] at h
      omega

theorem read_head_take {d : List Nat} {p tag ty p1 : Nat}
    (h : read_head d p = .ok ((tag, ty), p1)) (t : Nat) :
    (p1 ≤ t → read_head (d.take t) p = .ok ((tag, ty), p1)) ∧
    (p ≤ t → t < p1 → read_head (d.take t) p = .error .partialData) := by
  unfold read_head at h
  cases hu : rd (read_u8 d p) with
  | error e => rw [hu] at h; simp at h
  | ok br =>
    obtain ⟨b, q⟩ := br
    try rw [hu] at h
    try dsimp only at h
    obtain ⟨hd, hq, hlen⟩ := rd_read_u8_ok hu
    split_ifs at h with hb15
    · cases hu2 : rd (read_u8 d q) with
      | error e => rw [hu2] at h; simp at h
      | ok br2 =>
        obtain ⟨b2, q2⟩ := br2
        try rw [hu2] at h
        try dsimp only at h
        obtain ⟨hd2, hq2, hlen2⟩ := rd_read_u8_ok hu2
        simp only [Except.ok.injEq, Prod.mk.injEq] at h
        obtain ⟨⟨hb2, hty⟩, hp1⟩ := h
        constructor
        · intro ht
          unfold read_head
          rw [(rd_read_u8_take hu t).1 (by omega)]
          dsimp only
          rw [if_pos hb15]
          rw [(rd_read_u8_take hu2 t).1 (by omega)]
          dsimp only
          rw [hb2, hty, hp1]
        · intro htp ht
          unfold read_head
          by_cases hqt : q ≤ t
          · rw [(rd_read_u8_take hu t).1 (by omega)]
            dsimp only
            rw [if_pos hb15]
            rw [(rd_read_u8_take hu2 t).2 (by omega)]
          · rw [(rd_read_u8_take hu t).2 (by omega)]
    · simp only [Except.ok.injEq, Prod.mk.injEq] at h
      obtain ⟨⟨htag, hty⟩, hp1⟩ := h
      constructor
      · intro ht
        unfold read_head
        rw [(rd_read_u8_take hu t).1 (by omega)]
        dsimp only
        rw [if_neg hb15]
        rw [htag, hty, hp1]
      · intro htp ht
        unfold read_head
        rw [(rd_read_u8_take hu t).2 (by omega)]

theorem prefix_mirror (le : Bool) (d : List Nat) : ∀ fuel : Nat,
    (∀ lim ty p v p', read_value le d fuel lim ty p = .ok (v, p') →
      p ≤ p' ∧ ∀ t,
        (p' ≤ t → read_value le (d.take t) fuel lim ty p = .ok (v, p')) ∧
        (p ≤ t → t < p' →
          read_value le (d.take t) fuel lim ty p = .error .partialData)) ∧
    (∀ lim p r p', read_list le d fuel lim p = .ok (r, p') →
      p ≤ p' ∧ ∀ t,
        (p' ≤ t → read_list le (d.take t) fuel lim p = .ok (r, p')) ∧
        (p ≤ t → t < p' →
          read_list le (d.take t) fuel lim p = .error .partialData)) ∧
    (∀ lim n acc p r p', read_list_elems le d fuel lim n acc p = .ok (r, p') →
      p ≤ p' ∧ ∀ t,
        (p' ≤ t → read_list_elems le (d.take t) fuel lim n acc p = .ok (r, p')) ∧
        (p ≤ t → t < p' →
          read_list_elems le (d.take t) fuel lim n acc p = .error .partialData)) ∧
    (∀ lim p r p', read_map le d fuel lim p = .ok (r, p') →
      p ≤ p' ∧ ∀ t,
        (p' ≤ t → read_map le (d.take t) fuel lim p = .ok (r, p')) ∧
        (p ≤ t → t < p' →
          read_map le (d.take t) fuel lim p = .error .partialData)) ∧
    (∀ lim n acc p r p', read_map_entries le d fuel lim n acc p = .ok (r, p') →
      p ≤ p' ∧ ∀ t,
        (p' ≤ t → read_map_entries le (d.take t) fuel lim n acc p = .ok (r, p')) ∧
        (p ≤ t → t < p' →
          read_map_entries le (d.take t) fuel lim n acc p = .error .partialData)) ∧
    (∀ lim p r p', read_struct le d fuel lim p = .ok (r, p') →
      p ≤ p' ∧ ∀ t,
        (p' ≤ t → read_struct le (d.take t) fuel lim p = .ok (r, p')) ∧
        (p ≤ t → t < p' →
          read_struct le (d.take t) fuel lim p = .error .partialData)) ∧
    (∀ lim acc p r p', read_struct_fields le d fuel lim acc p = .ok (r, p') →
      p ≤ p' ∧ ∀ t,
        (p' ≤ t → read_struct_fields le (d.take t) fuel lim acc p = .ok (r, p')) ∧
        (p ≤ t → t < p' →
          read_struct_fields le (d.take t) fuel lim acc p = .error .partialData)) ∧
    (∀ lim p r p', read_simple_list le d fuel lim p = .ok (r, p') →
      p ≤ p' ∧ ∀ t,
        (p' ≤ t → read_simple_list le (d.take t) fuel lim p = .ok (r, p')) ∧
        (p ≤ t → t < p' →
          read_simple_list le (d.take t) fuel lim p = .error .partialData)) ∧
    (∀ lim p n p', read_integer_generic le d fuel lim p = .ok (n, p') →
      p ≤ p' ∧ ∀ t,
        (p' ≤ t → read_integer_generic le (d.take t) fuel lim p = .ok (n, p')) ∧
        (p ≤ t → t < p' →
          read_integer_generic le (d.take t) fuel lim p = .error .partialData)) := by
  intro fuel
  induction fuel with
  | zero =>
    refine ⟨?_, ?_, ?_, ?_, ?_, ?_, ?_, ?_, ?_⟩
    · intro lim ty p v p' h; simp [read_value] at h
    · intro lim p r p' h; simp [read_list] at h
    · intro lim n acc p r p' h; simp [read_list_elems] at h
    · intro lim p r p' h; simp [read_map] at h
    · intro lim n acc p r p' h; simp [read_map_entries] at h
    · intro lim p r p' h; simp [read_struct] at h
    · intro lim acc p r p' h; simp [read_struct_fields] at h
    · intro lim p r p' h; simp [read_simple_list] at h
    · intro lim p n p' h; simp [read_integer_generic] at h
  | succ fuel ih =>
    obtain ⟨ihv, ihl, ihle, ihm, ihme, ihs, ihsf, ihsl, ihig⟩ := ih
    refine ⟨?_, ?_, ?_, ?_, ?_, ?_, ?_, ?_, ?_⟩
    · -- read_value
      intro lim ty p v p' h
      by_cases ht12 : ty = JCE_ZERO_TAG
      · subst ht12
        simp only [read_value] at h ⊢
        norm_num [JCE_ZERO_TAG, JCE_INT1, JCE_INT2, JCE_INT4, JCE_INT8, JCE_FLOAT,
          JCE_DOUBLE, JCE_STRING1, JCE_STRING4, JCE_LIST, JCE_MAP,
          JCE_STRUCT_BEGIN, JCE_STRUCT_END, JCE_SIMPLE_LIST] at h ⊢
        obtain ⟨hv1, hp1⟩ := h
        refine ⟨by omega, fun t => ⟨?_, ?_⟩⟩
        · intro ht
          exact ⟨hv1, hp1⟩
        · intro htp ht
          exact absurd ht (by omega)
      by_cases ht0 : ty = JCE_INT1
      · subst ht0
        simp only [read_value] at h ⊢
        norm_num [JCE_ZERO_TAG, JCE_INT1, JCE_INT2, JCE_INT4, JCE_INT8, JCE_FLOAT,
          JCE_DOUBLE, JCE_STRING1, JCE_STRING4, JCE_LIST, JCE_MAP,
          JCE_STRUCT_BEGIN, JCE_STRUCT_END, JCE_SIMPLE_LIST] at h ⊢
        cases hr : rd (read_int1 d p) with
        | error e => try rw [hr] at h; simp [Except.map] at h
        | ok xr =>
          obtain ⟨x, q⟩ := xr
          try rw [hr] at h
          simp only [Except.map, Except.ok.injEq, Prod.mk.injEq] at h
          obtain ⟨hv1, hp1⟩ := h
          obtain hok := rd_read_int1_ok hr
          refine ⟨by omega, fun t => ⟨?_, ?_⟩⟩
          · intro ht
            rw [(rd_read_int1_take hr t).1 (by omega)]
            simp only [Except.map, Except.ok.injEq, Prod.mk.injEq]
            exact ⟨hv1, hp1⟩
          · intro htp ht
            rw [(rd_read_int1_take hr t).2 (by omega)]
            simp [Except.map]
      by_cases ht1 : ty = JCE_INT2
      · subst ht1
        simp only [read_value] at h ⊢
        norm_num [JCE_ZERO_TAG, JCE_INT1, JCE_INT2, JCE_INT4, JCE_INT8, JCE_FLOAT,
          JCE_DOUBLE, JCE_STRING1, JCE_STRING4, JCE_LIST, JCE_MAP,
          JCE_STRUCT_BEGIN, JCE_STRUCT_END, JCE_SIMPLE_LIST] at h ⊢
        cases hr : rd (read_int_w 2 le d p) with
        | error e => try rw [hr] at h; simp [Except.map] at h
        | ok xr =>
          obtain ⟨x, q⟩ := xr
          try rw [hr] at h
          simp only [Except.map, Except.ok.injEq, Prod.mk.injEq] at h
          obtain ⟨hv1, hp1⟩ := h
          obtain hok := rd_read_int_w_ok hr
          refine ⟨by omega, fun t => ⟨?_, ?_⟩⟩
          · intro ht
            rw [(rd_read_int_w_take hr t).1 (by omega)]
            simp only [Except.map, Except.ok.injEq, Prod.mk.injEq]
            exact ⟨hv1, hp1⟩
          · intro htp ht
            rw [(rd_read_int_w_take hr t).2 (by omega)]
            simp [Except.map]
      by_cases ht2 : ty = JCE_INT4
      · subst ht2
        simp only [read_value] at h ⊢
        norm_num [JCE_ZERO_TAG, JCE_INT1, JCE_INT2, JCE_INT4, JCE_INT8, JCE_FLOAT,
          JCE_DOUBLE, JCE_STRING1, JCE_STRING4, JCE_LIST, JCE_MAP,
          JCE_STRUCT_BEGIN, JCE_STRUCT_END, JCE_SIMPLE_LIST] at h ⊢
        cases hr : rd (read_int_w 4 le d p) with
        | error e => try rw [hr] at h; simp [Except.map] at h
        | ok xr =>
          obtain ⟨x, q⟩ := xr
          try rw [hr] at h
          simp only [Except.map, Except.ok.injEq, Prod.mk.injEq] at h
          obtain ⟨hv1, hp1⟩ := h
          obtain hok := rd_read_int_w_ok hr
          refine ⟨by omega, fun t => ⟨?_, ?_⟩⟩
          · intro ht
            rw [(rd_read_int_w_take hr t).1 (by omega)]
            simp only [Except.map, Except.ok.injEq, Prod.mk.injEq]
            exact ⟨hv1, hp1⟩
          · intro htp ht
            rw [(rd_read_int_w_take hr t).2 (by omega)]
            simp [Except.map]
      by_cases ht3 : ty = JCE_INT8
      · subst ht3
        simp only [read_value] at h ⊢
        norm_num [JCE_ZERO_TAG, JCE_INT1, JCE_INT2, JCE_INT4, JCE_INT8, JCE_FLOAT,
          JCE_DOUBLE, JCE_STRING1, JCE_STRING4, JCE_LIST, JCE_MAP,
          JCE_STRUCT_BEGIN, JCE_STRUCT_END, JCE_SIMPLE_LIST] at h ⊢
        cases hr : rd (read_int_w 8 le d p) with
        | error e => try rw [hr] at h; simp [Except.map] at h
        | ok xr =>
          obtain ⟨x, q⟩ := xr
          try rw [hr] at h
          simp only [Except.map, Except.ok.injEq, Prod.mk.injEq] at h
          obtain ⟨hv1, hp1⟩ := h
          obtain hok := rd_read_int_w_ok hr
          refine ⟨by omega, fun t => ⟨?_, ?_⟩⟩
          · intro ht
            rw [(rd_read_int_w_take hr t).1 (by omega)]
            simp only [Except.map, Except.ok.injEq, Prod.mk.injEq]
            exact ⟨hv1, hp1⟩
          · intro htp ht
            rw [(rd_read_int_w_take hr t).2 (by omega)]
            simp [Except.map]
      by_cases ht4 : ty = JCE_FLOAT
      · subst ht4
        simp only [read_value] at h ⊢
        norm_num [JCE_ZERO_TAG, JCE_INT1, JCE_INT2, JCE_INT4, JCE_INT8, JCE_FLOAT,
          JCE_DOUBLE, JCE_STRING1, JCE_STRING4, JCE_LIST, JCE_MAP,
          JCE_STRUCT_BEGIN, JCE_STRUCT_END, JCE_SIMPLE_LIST] at h ⊢
        cases hr : rd (read_float le d p) with
        | error e => try rw [hr] at h; simp [Except.map] at h
        | ok xr =>
          obtain ⟨x, q⟩ := xr
          try rw [hr] at h
          simp only [Except.map, Except.ok.injEq, Prod.mk.injEq] at h
          obtain ⟨hv1, hp1⟩ := h
          obtain hok := rd_read_float_ok hr
          refine ⟨by omega, fun t => ⟨?_, ?_⟩⟩
          · intro ht
            rw [(rd_read_float_take hr t).1 (by omega)]
            simp only [Except.map, Except.ok.injEq, Prod.mk.injEq]
            exact ⟨hv1, hp1⟩
          · intro htp ht
            rw [(rd_read_float_take hr t).2 (by omega)]
            simp [Except.map]
      by_cases ht5 : ty = JCE_DOUBLE
      · subst ht5
        simp only [read_value] at h ⊢
        norm_num [JCE_ZERO_TAG, JCE_INT1, JCE_INT2, JCE_INT4, JCE_INT8, JCE_FLOAT,
          JCE_DOUBLE, JCE_STRING1, JCE_STRING4, JCE_LIST, JCE_MAP,
          JCE_STRUCT_BEGIN, JCE_STRUCT_END, JCE_SIMPLE_LIST] at h ⊢
        cases hr : rd (read_double le d p) with
        | error e => try rw [hr] at h; simp [Except.map] at h
        | ok xr =>
          obtain ⟨x, q⟩ := xr
          try rw [hr] at h
          simp only [Except.map, Except.ok.injEq, Prod.mk.injEq] at h
          obtain ⟨hv1, hp1⟩ := h
          obtain hok := rd_read_double_ok hr
          refine ⟨by omega, fun t => ⟨?_, ?_⟩⟩
          · intro ht
            rw [(rd_read_double_take hr t).1 (by omega)]
            simp only [Except.map, Except.ok.injEq, Prod.mk.injEq]
            exact ⟨hv1, hp1⟩
          · intro htp ht
            rw [(rd_read_double_take hr t).2 (by omega)]
            simp [Except.map]
      by_cases ht6 : ty = JCE_STRING1
      · subst ht6
        simp only [read_value] at h ⊢
        norm_num [JCE_ZERO_TAG, JCE_INT1, JCE_INT2, JCE_INT4, JCE_INT8, JCE_FLOAT,
          JCE_DOUBLE, JCE_STRING1, JCE_STRING4, JCE_LIST, JCE_MAP,
          JCE_STRUCT_BEGIN, JCE_STRUCT_END, JCE_SIMPLE_LIST] at h ⊢
        cases hu : rd (read_u8 d p) with
        | error e => try rw [hu] at h; simp at h
        | ok lr =>
          obtain ⟨len, p1⟩ := lr
          try rw [hu] at h
          try dsimp only at h
          cases hb : rd (read_bytes d p1 (len : Int)) with
          | error e => try rw [hb] at h; simp [Except.map] at h
          | ok br =>
            obtain ⟨bs, p2⟩ := br
            try rw [hb] at h
            simp only [Except.map, Except.ok.injEq, Prod.mk.injEq] at h
            obtain ⟨hv1, hp1⟩ := h
            obtain ⟨hdu, hq1, hlen1⟩ := rd_read_u8_ok hu
            obtain ⟨hn, hq2, hlen2, hbs⟩ := rd_read_bytes_ok hb
            refine ⟨by omega, fun t => ⟨?_, ?_⟩⟩
            · intro ht
              rw [(rd_read_u8_take hu t).1 (by omega)]
              dsimp only
              rw [(rd_read_bytes_take hb t).1 (by omega)]
              simp only [Except.map, Except.ok.injEq, Prod.mk.injEq]
              exact ⟨hv1, hp1⟩
            · intro htp ht
              by_cases hqt : p1 ≤ t
              · rw [(rd_read_u8_take hu t).1 (by omega)]
                dsimp only
                rw [(rd_read_bytes_take hb t).2 (by omega)]
                simp [Except.map]
              · rw [(rd_read_u8_take hu t).2 (by omega)]
      by_cases ht7 : ty = JCE_STRING4
      · subst ht7
        simp only [read_value] at h ⊢
        norm_num [JCE_ZERO_TAG, JCE_INT1, JCE_INT2, JCE_INT4, JCE_INT8, JCE_FLOAT,
          JCE_DOUBLE, JCE_STRING1, JCE_STRING4, JCE_LIST, JCE_MAP,
          JCE_STRUCT_BEGIN, JCE_STRUCT_END, JCE_SIMPLE_LIST] at h ⊢
        cases hu : rd (read_int_w 4 le d p) with
        | error e => try rw [hu] at h; simp at h
        | ok lr =>
          obtain ⟨len, p1⟩ := lr
          try rw [hu] at h
          try dsimp only at h
          by_cases hneg : len < 0
          · rw [if_pos hneg] at h
            simp at h
          rw [if_neg hneg] at h
          by_cases hbig : len > (MAX_STRING_LENGTH : Int)
          · rw [if_pos hbig] at h
            simp at h
          rw [if_neg hbig] at h
          cases hb : rd (read_bytes d p1 len) with
          | error e => try rw [hb] at h; simp [Except.map] at h
          | ok br =>
            obtain ⟨bs, p2⟩ := br
            try rw [hb] at h
            simp only [Except.map, Except.ok.injEq, Prod.mk.injEq] at h
            obtain ⟨hv1, hp1⟩ := h
            obtain ⟨hq1, hlen1⟩ := rd_read_int_w_ok hu
            obtain ⟨hn, hq2, hlen2, hbs⟩ := rd_read_bytes_ok hb
            refine ⟨by omega, fun t => ⟨?_, ?_⟩⟩
            · intro ht
              rw [(rd_read_int_w_take hu t).1 (by omega)]
              dsimp only
              rw [if_neg hneg, if_neg hbig]
              rw [(rd_read_bytes_take hb t).1 (by omega)]
              simp only [Except.map, Except.ok.injEq, Prod.mk.injEq]
              exact ⟨hv1, hp1⟩
            · intro htp ht
              by_cases hqt : p1 ≤ t
              · rw [(rd_read_int_w_take hu t).1 (by omega)]
                dsimp only
                rw [if_neg hneg, if_neg hbig]
                rw [(rd_read_bytes_take hb t).2 (by omega)]
                simp [Except.map]
              · rw [(rd_read_int_w_take hu t).2 (by omega)]
      by_cases ht9 : ty = JCE_LIST
      · subst ht9
        simp only [read_value] at h ⊢
        norm_num [JCE_ZERO_TAG, JCE_INT1, JCE_INT2, JCE_INT4, JCE_INT8, JCE_FLOAT,
          JCE_DOUBLE, JCE_STRING1, JCE_STRING4, JCE_LIST, JCE_MAP,
          JCE_STRUCT_BEGIN, JCE_STRUCT_END, JCE_SIMPLE_LIST] at h ⊢
        cases hr : read_list le d fuel lim p with
        | error e => try rw [hr] at h; simp [Except.map] at h
        | ok xr =>
          obtain ⟨xs, q⟩ := xr
          try rw [hr] at h
          simp only [Except.map, Except.ok.injEq, Prod.mk.injEq] at h
          obtain ⟨hv1, hp1⟩ := h
          obtain ⟨hmono, hparts⟩ := ihl lim p xs q hr
          refine ⟨by omega, fun t => ⟨?_, ?_⟩⟩
          · intro ht
            rw [(hparts t).1 (by omega)]
            simp only [Except.map, Except.ok.injEq, Prod.mk.injEq]
            exact ⟨hv1, hp1⟩
          · intro htp ht
            rw [(hparts t).2 (by omega) (by omega)]
            simp [Except.map]
      by_cases ht8 : ty = JCE_MAP
      · subst ht8
        simp only [read_value] at h ⊢
        norm_num [JCE_ZERO_TAG, JCE_INT1, JCE_INT2, JCE_INT4, JCE_INT8, JCE_FLOAT,
          JCE_DOUBLE, JCE_STRING1, JCE_STRING4, JCE_LIST, JCE_MAP,
          JCE_STRUCT_BEGIN, JCE_STRUCT_END, JCE_SIMPLE_LIST] at h ⊢
        cases hr : read_map le d fuel lim p with
        | error e => try rw [hr] at h; simp [Except.map] at h
        | ok xr =>
          obtain ⟨xs, q⟩ := xr
          try rw [hr] at h
          simp only [Except.map, Except.ok.injEq, Prod.mk.injEq] at h
          obtain ⟨hv1, hp1⟩ := h
          obtain ⟨hmono, hparts⟩ := ihm lim p xs q hr
          refine ⟨by omega, fun t => ⟨?_, ?_⟩⟩
          · intro ht
            rw [(hparts t).1 (by omega)]
            simp only [Except.map, Except.ok.injEq, Prod.mk.injEq]
            exact ⟨hv1, hp1⟩
          · intro htp ht
            rw [(hparts t).2 (by omega) (by omega)]
            simp [Except.map]
      by_cases ht10 : ty = JCE_STRUCT_BEGIN
      · subst ht10
        simp only [read_value] at h ⊢
        norm_num [JCE_ZERO_TAG, JCE_INT1, JCE_INT2, JCE_INT4, JCE_INT8, JCE_FLOAT,
          JCE_DOUBLE, JCE_STRING1, JCE_STRING4, JCE_LIST, JCE_MAP,
          JCE_STRUCT_BEGIN, JCE_STRUCT_END, JCE_SIMPLE_LIST] at h ⊢
        cases hr : read_struct le d fuel lim p with
        | error e => try rw [hr] at h; simp [Except.map] at h
        | ok xr =>
          obtain ⟨xs, q⟩ := xr
          try rw [hr] at h
          simp only [Except.map, Except.ok.injEq, Prod.mk.injEq] at h
          obtain ⟨hv1, hp1⟩ := h
          obtain ⟨hmono, hparts⟩ := ihs lim p xs q hr
          refine ⟨by omega, fun t => ⟨?_, ?_⟩⟩
          · intro ht
            rw [(hparts t).1 (by omega)]
            simp only [Except.map, Except.ok.injEq, Prod.mk.injEq]
            exact ⟨hv1, hp1⟩
          · intro htp ht
            rw [(hparts t).2 (by omega) (by omega)]
            simp [Except.map]
      by_cases ht11 : ty = JCE_STRUCT_END
      · subst ht11
        simp only [read_value] at h ⊢
        norm_num [JCE_ZERO_TAG, JCE_INT1, JCE_INT2, JCE_INT4, JCE_INT8, JCE_FLOAT,
          JCE_DOUBLE, JCE_STRING1, JCE_STRING4, JCE_LIST, JCE_MAP,
          JCE_STRUCT_BEGIN, JCE_STRUCT_END, JCE_SIMPLE_LIST] at h ⊢
        obtain ⟨hv1, hp1⟩ := h
        refine ⟨by omega, fun t => ⟨?_, ?_⟩⟩
        · intro ht
          exact ⟨hv1, hp1⟩
        · intro htp ht
          exact absurd ht (by omega)
      by_cases ht13 : ty = JCE_SIMPLE_LIST
      · subst ht13
        simp only [read_value] at h ⊢
        norm_num [JCE_ZERO_TAG, JCE_INT1, JCE_INT2, JCE_INT4, JCE_INT8, JCE_FLOAT,
          JCE_DOUBLE, JCE_STRING1, JCE_STRING4, JCE_LIST, JCE_MAP,
          JCE_STRUCT_BEGIN, JCE_STRUCT_END, JCE_SIMPLE_LIST] at h ⊢
        cases hr : read_simple_list le d fuel lim p with
        | error e => try rw [hr] at h; simp [Except.map] at h
        | ok xr =>
          obtain ⟨xs, q⟩ := xr
          try rw [hr] at h
          simp only [Except.map, Except.ok.injEq, Prod.mk.injEq] at h
          obtain ⟨hv1, hp1⟩ := h
          obtain ⟨hmono, hparts⟩ := ihsl lim p xs q hr
          refine ⟨by omega, fun t => ⟨?_, ?_⟩⟩
          · intro ht
            rw [(hparts t).1 (by omega)]
            simp only [Except.map, Except.ok.injEq, Prod.mk.injEq]
            exact ⟨hv1, hp1⟩
          · intro htp ht
            rw [(hparts t).2 (by omega) (by omega)]
            simp [Except.map]
      simp only [read_value, if_neg ht12, if_neg ht0, if_neg ht1, if_neg ht2,
        if_neg ht3, if_neg ht4, if_neg ht5, if_neg ht6, if_neg ht7, if_neg ht9,
        if_neg ht8, if_neg ht10, if_neg ht11, if_neg ht13] at h
      simp at h
    -- read_list
    · intro lim p r p' h
      simp only [read_list] at h ⊢
      cases hc : check_recursion lim with
      | error e => try rw [hc] at h; simp at h
      | ok u =>
        try rw [hc] at h
        try dsimp only at h
        cases hg : read_integer_generic le d fuel (lim - 1) p with
        | error e => try rw [hg] at h; simp at h
        | ok gr =>
          obtain ⟨size, p1⟩ := gr
          try rw [hg] at h
          try dsimp only at h
          obtain ⟨hm1, hparts1⟩ := ihig (lim - 1) p size p1 hg
          obtain ⟨hm2, hparts2⟩ := ihle (lim - 1) size [] p1 r p' h
          refine ⟨by omega, fun t => ⟨?_, ?_⟩⟩
          · intro ht
            try rw [hc]
            try dsimp only
            rw [(hparts1 t).1 (by omega)]
            dsimp only
            exact (hparts2 t).1 (by omega)
          · intro htp ht
            try rw [hc]
            try dsimp only
            by_cases hq : p1 ≤ t
            · rw [(hparts1 t).1 (by omega)]
              dsimp only
              exact (hparts2 t).2 (by omega) (by omega)
            · rw [(hparts1 t).2 (by omega) (by omega)]
    -- read_list_elems
    · intro lim n acc p r p' h
      simp only [read_list_elems] at h ⊢
      cases n with
      | zero =>
        simp only [Except.ok.injEq, Prod.mk.injEq] at h
        obtain ⟨hr1, hp1⟩ := h
        refine ⟨by omega, fun t => ⟨?_, ?_⟩⟩
        · intro ht
          simp only [Except.ok.injEq, Prod.mk.injEq]
          exact ⟨hr1, hp1⟩
        · intro htp ht
          exact absurd ht (by omega)
      | succ n' =>
        cases hh : read_head d p with
        | error e => try rw [hh] at h; simp at h
        | ok hd =>
          obtain ⟨⟨tag, ty⟩, p1⟩ := hd
          try rw [hh] at h
          try dsimp only at h
          cases hv : read_value le d fuel lim ty p1 with
          | error e => try rw [hv] at h; simp at h
          | ok vr =>
            obtain ⟨v, p2⟩ := vr
            try rw [hv] at h
            try dsimp only at h
            have hho := read_head_ok hh
            obtain ⟨hm1, hparts1⟩ := ihv lim ty p1 v p2 hv
            obtain ⟨hm2, hparts2⟩ := ihle lim n' (acc ++ [v]) p2 r p' h
            refine ⟨by omega, fun t => ⟨?_, ?_⟩⟩
            · intro ht
              rw [(read_head_take hh t).1 (by omega)]
              dsimp only
              rw [(hparts1 t).1 (by omega)]
              dsimp only
              exact (hparts2 t).1 (by omega)
            · intro htp ht
              by_cases h1t : p1 ≤ t
              · rw [(read_head_take hh t).1 (by omega)]
                dsimp only
                by_cases h2t : p2 ≤ t
                · rw [(hparts1 t).1 (by omega)]
                  dsimp only
                  exact (hparts2 t).2 (by omega) (by omega)
                · rw [(hparts1 t).2 (by omega) (by omega)]
              · rw [(read_head_take hh t).2 (by omega) (by omega)]
    -- read_map
    · intro lim p r p' h
      simp only [read_map] at h ⊢
      cases hc : check_recursion lim with
      | error e => try rw [hc] at h; simp at h
      | ok u =>
        try rw [hc] at h
        try dsimp only at h
        cases hg : read_integer_generic le d fuel (lim - 1) p with
        | error e => try rw [hg] at h; simp at h
        | ok gr =>
          obtain ⟨size, p1⟩ := gr
          try rw [hg] at h
          try dsimp only at h
          obtain ⟨hm1, hparts1⟩ := ihig (lim - 1) p size p1 hg
          obtain ⟨hm2, hparts2⟩ := ihme (lim - 1) size [] p1 r p' h
          refine ⟨by omega, fun t => ⟨?_, ?_⟩⟩
          · intro ht
            try rw [hc]
            try dsimp only
            rw [(hparts1 t).1 (by omega)]
            dsimp only
            exact (hparts2 t).1 (by omega)
          · intro htp ht
            try rw [hc]
            try dsimp only
            by_cases hq : p1 ≤ t
            · rw [(hparts1 t).1 (by omega)]
              dsimp only
              exact (hparts2 t).2 (by omega) (by omega)
            · rw [(hparts1 t).2 (by omega) (by omega)]
    -- read_map_entries
    · intro lim n acc p r p' h
      simp only [read_map_entries] at h ⊢
      cases n with
      | zero =>
        simp only [Except.ok.injEq, Prod.mk.injEq] at h
        obtain ⟨hr1, hp1⟩ := h
        refine ⟨by omega, fun t => ⟨?_, ?_⟩⟩
        · intro ht
          simp only [Except.ok.injEq, Prod.mk.injEq]
          exact ⟨hr1, hp1⟩
        · intro htp ht
          exact absurd ht (by omega)
      | succ n' =>
        cases hh : read_head d p with
        | error e => try rw [hh] at h; simp at h
        | ok hd =>
          obtain ⟨⟨ktag, ktype⟩, p1⟩ := hd
          try rw [hh] at h
          try dsimp only at h
          by_cases hk : ktag ≠ 0
          · rw [if_pos hk] at h
            simp at h
          rw [if_neg hk] at h
          cases hv : read_value le d fuel lim ktype p1 with
          | error e => try rw [hv] at h; simp at h
          | ok vr =>
            obtain ⟨key, p2⟩ := vr
            try rw [hv] at h
            try dsimp only at h
            cases hh2 : read_head d p2 with
            | error e => try rw [hh2] at h; simp at h
            | ok hd2 =>
              obtain ⟨⟨vtag, vtype⟩, p3⟩ := hd2
              try rw [hh2] at h
              try dsimp only at h
              by_cases hvt : vtag ≠ 1
              · rw [if_pos hvt] at h
                simp at h
              rw [if_neg hvt] at h
              cases hv2 : read_value le d fuel lim vtype p3 with
              | error e => try rw [hv2] at h; simp at h
              | ok vr2 =>
                obtain ⟨val, p4⟩ := vr2
                try rw [hv2] at h
                try dsimp only at h
                have hho := read_head_ok hh
                have hho2 := read_head_ok hh2
                obtain ⟨hm1, hparts1⟩ := ihv lim ktype p1 key p2 hv
                obtain ⟨hm2, hparts2⟩ := ihv lim vtype p3 val p4 hv2
                obtain ⟨hm3, hparts3⟩ := ihme lim n' _ p4 r p' h
                refine ⟨by omega, fun t => ⟨?_, ?_⟩⟩
                · intro ht
                  rw [(read_head_take hh t).1 (by omega)]
                  dsimp only
                  rw [if_neg hk]
                  rw [(hparts1 t).1 (by omega)]
                  dsimp only
                  rw [(read_head_take hh2 t).1 (by omega)]
                  dsimp only
                  rw [if_neg hvt]
                  rw [(hparts2 t).1 (by omega)]
                  dsimp only
                  exact (hparts3 t).1 (by omega)
                · intro htp ht
                  by_cases h1t : p1 ≤ t
                  · rw [(read_head_take hh t).1 (by omega)]
                    dsimp only
                    rw [if_neg hk]
                    by_cases h2t : p2 ≤ t
                    · rw [(hparts1 t).1 (by omega)]
                      dsimp only
                      by_cases h3t : p3 ≤ t
                      · rw [(read_head_take hh2 t).1 (by omega)]
                        dsimp only
                        rw [if_neg hvt]
                        by_cases h4t : p4 ≤ t
                        · rw [(hparts2 t).1 (by omega)]
                          dsimp only
                          exact (hparts3 t).2 (by omega) (by omega)
                        · rw [(hparts2 t).2 (by omega) (by omega)]
                      · rw [(read_head_take hh2 t).2 (by omega) (by omega)]
                    · rw [(hparts1 t).2 (by omega) (by omega)]
                  · rw [(read_head_take hh t).2 (by omega) (by omega)]
    -- read_struct
    · intro lim p r p' h
      simp only [read_struct] at h ⊢
      cases hc : check_recursion lim with
      | error e => try rw [hc] at h; simp at h
      | ok u =>
        try rw [hc] at h
        try dsimp only at h
        obtain ⟨hm1, hparts1⟩ := ihsf (lim - 1) [] p r p' h
        refine ⟨by omega, fun t => ⟨?_, ?_⟩⟩
        · intro ht
          try rw [hc]
          try dsimp only
          exact (hparts1 t).1 (by omega)
        · intro htp ht
          try rw [hc]
          try dsimp only
          exact (hparts1 t).2 (by omega) (by omega)
    -- read_struct_fields
    · intro lim acc p r p' h
      simp only [read_struct_fields] at h ⊢
      cases hp : rd (peek_u8 d p) with
      | error e => try rw [hp] at h; simp at h
      | ok br =>
        obtain ⟨b, q⟩ := br
        try rw [hp] at h
        try dsimp only at h
        obtain ⟨hdb, hqp, hlenp⟩ := rd_peek_u8_ok hp
        by_cases hb15 : b &&& 0x0F = JCE_STRUCT_END
        · rw [if_pos hb15] at h
          cases hu : rd (read_u8 d p) with
          | error e => try rw [hu] at h; simp at h
          | ok ur =>
            obtain ⟨x, q1⟩ := ur
            try rw [hu] at h
            try dsimp only at h
            simp only [Except.ok.injEq, Prod.mk.injEq] at h
            obtain ⟨hr1, hp1⟩ := h
            obtain ⟨hdx, hq1, hlen1⟩ := rd_read_u8_ok hu
            refine ⟨by omega, fun t => ⟨?_, ?_⟩⟩
            · intro ht
              rw [(rd_peek_u8_take hp t).1 (by omega)]
              dsimp only
              rw [if_pos hb15]
              rw [(rd_read_u8_take hu t).1 (by omega)]
              dsimp only
              simp only [Except.ok.injEq, Prod.mk.injEq]
              exact ⟨hr1, hp1⟩
            · intro htp ht
              rw [(rd_peek_u8_take hp t).2 (by omega)]
        · rw [if_neg hb15] at h
          cases hh : read_head d p with
          | error e => try rw [hh] at h; simp at h
          | ok hd =>
            obtain ⟨⟨tag, ty⟩, p1⟩ := hd
            try rw [hh] at h
            try dsimp only at h
            cases hv : read_value le d fuel lim ty p1 with
            | error e => try rw [hv] at h; simp at h
            | ok vr =>
              obtain ⟨v, p2⟩ := vr
              try rw [hv] at h
              try dsimp only at h
              have hho := read_head_ok hh
              obtain ⟨hm1, hparts1⟩ := ihv lim ty p1 v p2 hv
              obtain ⟨hm2, hparts2⟩ := ihsf lim (insertField acc tag v) p2 r p' h
              refine ⟨by omega, fun t => ⟨?_, ?_⟩⟩
              · intro ht
                rw [(rd_peek_u8_take hp t).1 (by omega)]
                dsimp only
                rw [if_neg hb15]
                rw [(read_head_take hh t).1 (by omega)]
                dsimp only
                rw [(hparts1 t).1 (by omega)]
                dsimp only
                exact (hparts2 t).1 (by omega)
              · intro htp ht
                by_cases hpt : p + 1 ≤ t
                · rw [(rd_peek_u8_take hp t).1 (by omega)]
                  dsimp only
                  rw [if_neg hb15]
                  by_cases h1t : p1 ≤ t
                  · rw [(read_head_take hh t).1 (by omega)]
                    dsimp only
                    by_cases h2t : p2 ≤ t
                    · rw [(hparts1 t).1 (by omega)]
                      dsimp only
                      exact (hparts2 t).2 (by omega) (by omega)
                    · rw [(hparts1 t).2 (by omega) (by omega)]
                  · rw [(read_head_take hh t).2 (by omega) (by omega)]
                · rw [(rd_peek_u8_take hp t).2 (by omega)]
    -- read_simple_list
    · intro lim p r p' h
      simp only [read_simple_list] at h ⊢
      cases hh : read_head d p with
      | error e => try rw [hh] at h; simp at h
      | ok hd =>
        obtain ⟨⟨tag, ty⟩, p1⟩ := hd
        try rw [hh] at h
        try dsimp only at h
        by_cases hty : ty ≠ JCE_INT1
        · rw [if_pos hty] at h
          simp at h
        rw [if_neg hty] at h
        cases hg : read_integer_generic le d fuel lim p1 with
        | error e => try rw [hg] at h; simp at h
        | ok gr =>
          obtain ⟨len, p2⟩ := gr
          try rw [hg] at h
          try dsimp only at h
          cases hb : rd (read_bytes d p2 (len : Int)) with
          | error e => try rw [hb] at h; simp at h
          | ok br =>
            obtain ⟨bs, p3⟩ := br
            try rw [hb] at h
            simp only [Except.ok.injEq, Prod.mk.injEq] at h
            obtain ⟨hr1, hp1⟩ := h
            have hho := read_head_ok hh
            obtain ⟨hm1, hparts1⟩ := ihig lim p1 len p2 hg
            obtain ⟨hn, hq2, hlen2, hbs⟩ := rd_read_bytes_ok hb
            refine ⟨by omega, fun t => ⟨?_, ?_⟩⟩
            · intro ht
              rw [(read_head_take hh t).1 (by omega)]
              dsimp only
              rw [if_neg hty]
              rw [(hparts1 t).1 (by omega)]
              dsimp only
              rw [(rd_read_bytes_take hb t).1 (by omega)]
              simp only [Except.ok.injEq, Prod.mk.injEq]
              exact ⟨hr1, hp1⟩
            · intro htp ht
              by_cases h1t : p1 ≤ t
              · rw [(read_head_take hh t).1 (by omega)]
                dsimp only
                rw [if_neg hty]
                by_cases h2t : p2 ≤ t
                · rw [(hparts1 t).1 (by omega)]
                  dsimp only
                  rw [(rd_read_bytes_take hb t).2 (by omega)]
                · rw [(hparts1 t).2 (by omega) (by omega)]
              · rw [(read_head_take hh t).2 (by omega) (by omega)]
    -- read_integer_generic
    · intro lim p n p' h
      simp only [read_integer_generic] at h ⊢
      cases hh : read_head d p with
      | error e => try rw [hh] at h; simp at h
      | ok hd =>
        obtain ⟨⟨tag, ty⟩, p1⟩ := hd
        try rw [hh] at h
        try dsimp only at h
        cases hv : read_value le d fuel lim ty p1 with
        | error e => try rw [hv] at h; simp at h
        | ok vr =>
          obtain ⟨v, p2⟩ := vr
          try rw [hv] at h
          try dsimp only at h
          have hho := read_head_ok hh
          obtain ⟨hm1, hparts1⟩ := ihv lim ty p1 v p2 hv
          cases v with
          | jint i =>
            try dsimp only at h
            by_cases hi : i < 0
            · rw [if_pos hi] at h
              simp at h
            rw [if_neg hi] at h
            by_cases hbig : i > (MAX_CONTAINER_SIZE : Int)
            · rw [if_pos hbig] at h
              simp at h
            rw [if_neg hbig] at h
            simp only [Except.ok.injEq, Prod.mk.injEq] at h
            obtain ⟨hr1, hp1⟩ := h
            refine ⟨by omega, fun t => ⟨?_, ?_⟩⟩
            · intro ht
              rw [(read_head_take hh t).1 (by omega)]
              dsimp only
              rw [(hparts1 t).1 (by omega)]
              dsimp only
              rw [if_neg hi, if_neg hbig]
              simp only [Except.ok.injEq, Prod.mk.injEq]
              exact ⟨hr1, hp1⟩
            · intro htp ht
              by_cases h1t : p1 ≤ t
              · rw [(read_head_take hh t).1 (by omega)]
                dsimp only
                rw [(hparts1 t).2 (by omega) (by omega)]
              · rw [(read_head_take hh t).2 (by omega) (by omega)]
          | jfloat b => simp at h
          | jdouble b => simp at h
          | jbytes bs => simp at h
          | jstr cs => simp at h
          | jlist xs => simp at h
          | jtuple xs => simp at h
          | jmap xs => simp at h
          | jstruct xs => simp at h
          | jnone => simp at h

theorem decode_loop_take (le : Bool) (d : List Nat) : ∀ fuel : Nat,
    ∀ lim acc p res pend, decode_loop le d fuel lim acc p = .ok (res, pend) →
      ∀ t, p ≤ t →
        (∃ res2, decode_loop le (d.take t) fuel lim acc p = .ok res2) ∨
        decode_loop le (d.take t) fuel lim acc p = .error .partialData := by
  intro fuel
  induction fuel with
  | zero => intro lim acc p res pend h t htp; simp [decode_loop] at h
  | succ fuel ih =>
    intro lim acc p res pend h t htp
    simp only [decode_loop] at h ⊢
    by_cases hte : readerEof (d.take t) p = true
    · rw [if_pos hte]
      exact Or.inl ⟨(acc, p), rfl⟩
    · rw [if_neg hte]
      have htlen : p < t ∧ p < d.length := by
        simp only [readerEof, List.length_take, ge_iff_le,
          decide_eq_true_eq] at hte
        omega
      rw [if_neg (by simp only [readerEof, ge_iff_le, decide_eq_true_eq]; omega)] at h
      cases hh : read_head d p with
      | error e => try rw [hh] at h; simp at h
      | ok hd =>
        obtain ⟨⟨tag, ty⟩, p1⟩ := hd
        try rw [hh] at h
        try dsimp only at h
        have hho := read_head_ok hh
        by_cases hend : ty = JCE_STRUCT_END
        · rw [if_pos hend] at h
          by_cases h1t : p1 ≤ t
          · left
            refine ⟨(acc, p1), ?_⟩
            rw [(read_head_take hh t).1 (by omega)]
            dsimp only
            rw [if_pos hend]
          · right
            rw [(read_head_take hh t).2 (by omega) (by omega)]
        · rw [if_neg hend] at h
          cases hv : read_value le d fuel lim ty p1 with
          | error e => try rw [hv] at h; simp at h
          | ok vr =>
            obtain ⟨v, p2⟩ := vr
            try rw [hv] at h
            try dsimp only at h
            obtain ⟨hm1, hparts1⟩ := (prefix_mirror le d fuel).1 lim ty p1 v p2 hv
            by_cases h1t : p1 ≤ t
            · by_cases h2t : p2 ≤ t
              · cases ih lim (insertField acc tag v) p2 res pend h t (by omega) with
                | inl hok =>
                  obtain ⟨res2, hok⟩ := hok
                  left
                  refine ⟨res2, ?_⟩
                  rw [(read_head_take hh t).1 (by omega)]
                  dsimp only
                  rw [if_neg hend]
                  rw [(hparts1 t).1 (by omega)]
                  dsimp only
                  exact hok
                | inr hpart =>
                  right
                  rw [(read_head_take hh t).1 (by omega)]
                  dsimp only
                  rw [if_neg hend]
                  rw [(hparts1 t).1 (by omega)]
                  dsimp only
                  exact hpart
              · right
                rw [(read_head_take hh t).1 (by omega)]
                dsimp only
                rw [if_neg hend]
                rw [(hparts1 t).2 (by omega) (by omega)]
            · right
              rw [(read_head_take hh t).2 (by omega) (by omega)]

/-! ## The claims -/

/-- C1 (counterexample): the byte stream `[0x0C, 0x1C]` is a valid complete
encoding (two zero-sentinel values under tags 0 and 1), yet truncating it
after its first byte — a prefix boundary before its final byte — decodes
silently to `{0: 0}` rather than failing with `PartialData`. -/
theorem claim1_counterexample :
    generic_decode false 16 [0x0C, 0x1C] = .ok [(0, .jint 0), (1, .jint 0)] ∧
    List.take 1 [0x0C, 0x1C] = [0x0C] ∧
    generic_decode false 16 [0x0C] = .ok [(0, .jint 0)] :=
  ⟨rfl, rfl, rfl⟩

/-- C1 (amended): decoding any proper prefix of a byte sequence on which
generic decode succeeds either succeeds (the truncation point falls on a
top-level value boundary, where the `while not eof` loop stops silently)
or fails with `PartialData`; it never fails with `MalformedData` or any
other error kind. -/
theorem claim1_prefix_partial_or_ok :
    ∀ (le : Bool) (fuel : Nat) (d : List Nat) (res : List (Nat × JValue)),
      generic_decode le fuel d = .ok res →
      ∀ t, t < d.length →
        (∃ res2, generic_decode le fuel (d.take t) = .ok res2) ∨
        generic_decode le fuel (d.take t) = .error .partialData := by
  intro le fuel d res h t ht
  unfold generic_decode at h ⊢
  cases hl : decode_loop le d fuel 100 [] 0 with
  | error e => try rw [hl] at h; simp [Except.map] at h
  | ok pr =>
    obtain ⟨res1, pend⟩ := pr
    cases decode_loop_take le d fuel 100 [] 0 res1 pend hl t (by omega) with
    | inl hok =>
      obtain ⟨res2, hok⟩ := hok
      exact Or.inl ⟨res2.1, by rw [hok]; simp [Except.map]⟩
    | inr hpart =>
      right
      rw [hpart]
      simp [Except.map]

/-- C1 (witness): the two-byte encoding of `{0: 5}` decodes; its one-byte
prefix is handled per the amended claim (here: `PartialData`). -/
theorem claim1_witness :
    (∃ res2, generic_decode false 16 (List.take 1 [0, 5]) = .ok res2) ∨
    generic_decode false 16 (List.take 1 [0, 5]) = .error .partialData :=
  claim1_prefix_partial_or_ok false 16 [0, 5] [(0, .jint 5)] rfl 1 (by decide)

/-- C2 (counterexample): in `raw` mode the classifier returns its input
unchanged before the empty-bytes check runs, so an empty byte value stays
`bytes` and is not the empty string. -/
theorem claim2_counterexample :
    convert_bytes_recursive (fun _ => false) (fun _ => []) false 1 "raw"
        (.jbytes []) = .jbytes [] ∧
    JValue.jbytes [] ≠ .jstr [] := by
  constructor
  · simp [convert_bytes_recursive]
  · intro h
    exact JValue.noConfusion h

/-- C2 (amended): an empty byte value classifies to the empty string in
every mode other than `raw` (including the documented `string` and `auto`
modes), while `raw` mode returns every value, including empty bytes,
unchanged. -/
theorem claim2_empty_bytes :
    (∀ (printable : Nat → Bool) (pyStrKey : JValue → List Nat) (le : Bool)
      (fuel : Nat) (mode : String), mode ≠ "raw" →
      convert_bytes_recursive printable pyStrKey le (fuel + 1) mode
        (.jbytes []) = .jstr []) ∧
    (∀ (printable : Nat → Bool) (pyStrKey : JValue → List Nat) (le : Bool)
      (fuel : Nat) (data : JValue),
      convert_bytes_recursive printable pyStrKey le fuel "raw" data = data) := by
  constructor
  · intro printable pyStrKey le fuel mode h
    simp [convert_bytes_recursive, h]
  · intro printable pyStrKey le fuel data
    cases fuel with
    | zero => simp [convert_bytes_recursive]
    | succ fuel =>
      rw [convert_bytes_recursive.eq_def]
      simp

/-- C2 (witness): in `auto` mode the empty byte value becomes the empty
string. -/
theorem claim2_witness :
    ("auto" : String) ≠ "raw" ∧
    convert_bytes_recursive (fun _ => false) (fun _ => []) false 3 "auto"
        (.jbytes []) = .jstr [] :=
  ⟨by decide, claim2_empty_bytes.1 (fun _ => false) (fun _ => []) false 2 "auto"
    (by decide)⟩

/-- C3 (counterexample): a tag of 300 does not fit the one-byte extended
tag field, so writing the header for `(300, 0)` and reading it back yields
tag `300 % 256 = 44`, not 300 — the claimed round trip fails above 255. -/
theorem claim3_counterexample :
    read_head (write_head 300 0) 0 = .ok ((44, 0), 2) ∧ (44 : Nat) ≠ 300 :=
  ⟨rfl, by decide⟩

set_option maxHeartbeats 1000000 in
set_option maxRecDepth 10000 in
/-- C3 (amended): for every tag in `[0, 255]` and every type id in
`[0, 13]`, writing a header and reading it back returns exactly the
original pair, consuming the whole encoding. -/
theorem claim3_head_roundtrip :
    ∀ tag, tag ≤ 255 → ∀ ty, ty ≤ 13 → head_roundtrip tag ty = true := by
  decide

/-- C3 (witness): the round trip at the largest amended tag and type. -/
theorem claim3_witness :
    (255 : Nat) ≤ 255 ∧ (13 : Nat) ≤ 13 ∧ head_roundtrip 255 13 = true :=
  ⟨by decide, by decide, claim3_head_roundtrip 255 (by decide) 13 (by decide)⟩

/-- C4: whenever the full decode of a value of any wire type succeeds, the
skip path for the same value also succeeds and leaves the cursor at
exactly the same position — regardless of the recursion-limit value the
skip path runs under (the skip dispatch never decrements the limit). -/
theorem claim4_skip_lockstep :
    ∀ (le : Bool) (d : List Nat) (fuel lim lim' ty p : Nat) (v : JValue)
      (p' : Nat),
      read_value le d fuel lim ty p = .ok (v, p') →
      skip_value le d fuel lim' ty p = .ok p' :=
  fun le d fuel lim lim' ty p v p' h =>
    (skip_mirror le d fuel).1 lim ty p v p' h lim'

/-- C4 (witness): decoding the list `[0, 5]` from `09 00 02 0C 00 05`
consumes through position 6; the skip path ends at 6 as well, even with a
different recursion-limit value. -/
theorem claim4_witness :
    skip_value false [0x09, 0x00, 0x02, 0x0C, 0x00, 0x05] 40 77 9 1 = .ok 6 :=
  claim4_skip_lockstep false [0x09, 0x00, 0x02, 0x0C, 0x00, 0x05] 40 100 77 9 1
    (.jlist [.jint 0, .jint 5]) 6 rfl

/-- C5: in default (big-endian) mode, whenever the big-endian
interpretation of the next 4 (resp. 8) bytes is non-finite while the
byte-swapped little-endian interpretation is finite, `read_float` (resp.
`read_double`) returns the little-endian interpretation; with the
explicit little-endian option the value is always decoded directly as
little-endian and the heuristic never applies. -/
theorem claim5_float_recovery :
    (∀ (d : List Nat) (p : Nat),
      p + 4 ≤ d.length →
      f32IsFinite (bytesToNatBE ((d.drop p).take 4)) = false →
      f32IsFinite (bytesToNatLE ((d.drop p).take 4)) = true →
      read_float false d p = (.ok (bytesToNatLE ((d.drop p).take 4)), p + 4)) ∧
    (∀ (d : List Nat) (p : Nat), p + 4 ≤ d.length →
      read_float true d p = (.ok (bytesToNatLE ((d.drop p).take 4)), p + 4)) ∧
    (∀ (d : List Nat) (p : Nat),
      p + 8 ≤ d.length →
      f64IsFinite (bytesToNatBE ((d.drop p).take 8)) = false →
      f64IsFinite (bytesToNatLE ((d.drop p).take 8)) = true →
      read_double false d p = (.ok (bytesToNatLE ((d.drop p).take 8)), p + 8)) ∧
    (∀ (d : List Nat) (p : Nat), p + 8 ≤ d.length →
      read_double true d p = (.ok (bytesToNatLE ((d.drop p).take 8)), p + 8)) := by
  refine ⟨?_, ?_, ?_, ?_⟩
  · intro d p h h2 h3
    unfold read_float
    rw [if_neg (by omega)]
    simp [h2, h3]
  · intro d p h
    unfold read_float
    rw [if_neg (by omega)]
    simp
  · intro d p h h2 h3
    unfold read_double
    rw [if_neg (by omega)]
    simp [h2, h3]
  · intro d p h
    unfold read_double
    rw [if_neg (by omega)]
    simp

/-- C5 (witness): the spec example `7F 80 00 00` (big-endian infinity,
finite when byte-swapped) yields the little-endian pattern `0x0000807F`,
and the analogous 8-byte case behaves the same; explicit little-endian
mode returns the little-endian pattern unconditionally. -/
theorem claim5_witness :
    read_float false [0x7F, 0x80, 0x00, 0x00] 0 = (.ok 32895, 4) ∧
    read_float true [0x7F, 0x80, 0x00, 0x00] 0 = (.ok 32895, 4) ∧
    read_double false [0x7F, 0xF0, 0, 0, 0, 0, 0, 0] 0 = (.ok 61567, 8) ∧
    read_double true [0x7F, 0xF0, 0, 0, 0, 0, 0, 0] 0 = (.ok 61567, 8) :=
  ⟨claim5_float_recovery.1 [0x7F, 0x80, 0x00, 0x00] 0 (by decide) (by decide)
      (by decide),
   claim5_float_recovery.2.1 [0x7F, 0x80, 0x00, 0x00] 0 (by decide),
   claim5_float_recovery.2.2.1 [0x7F, 0xF0, 0, 0, 0, 0, 0, 0] 0 (by decide)
      (by decide) (by decide),
   claim5_float_recovery.2.2.2 [0x7F, 0xF0, 0, 0, 0, 0, 0, 0] 0 (by decide)⟩

/-- Helper for the cap claims: a `String4` whose four-byte length field
decodes to `100*1024*1024 + 1` fails the decoder's cap check. -/
theorem read_value_string4_cap :
    ∀ (le : Bool) (d : List Nat) (p p' : Nat) (fuel lim : Nat),
      rd (read_int_w 4 le d p) = .ok ((104857601 : Int), p') →
      read_value le d (fuel + 1) lim JCE_STRING4 p = .error .malformedData := by
  intro le d p p' fuel lim h
  simp only [read_value, JCE_ZERO_TAG, JCE_INT1, JCE_INT2, JCE_INT4, JCE_INT8,
    JCE_FLOAT, JCE_DOUBLE, JCE_STRING1, JCE_STRING4]
  norm_num
  rw [h]
  norm_num [MAX_STRING_LENGTH]

/-- Helper for the cap claims: a list whose headered count value decodes
to `10000001` fails the container cap check. -/
theorem read_value_list_cap :
    ∀ (le : Bool) (d : List Nat) (p p1 p' : Nat) (tag ty : Nat)
      (fuel lim : Nat),
      0 < lim →
      read_head d p = .ok ((tag, ty), p1) →
      read_value le d (fuel + 1) (lim - 1) ty p1 = .ok (.jint 10000001, p') →
      read_value le d (fuel + 4) lim JCE_LIST p = .error .malformedData := by
  intro le d p p1 p' tag ty fuel lim hlim hh hv
  simp only [read_value, JCE_ZERO_TAG, JCE_INT1, JCE_INT2, JCE_INT4, JCE_INT8,
    JCE_FLOAT, JCE_DOUBLE, JCE_STRING1, JCE_STRING4, JCE_LIST]
  norm_num
  simp only [read_list, check_recursion]
  rw [if_neg (by omega)]
  simp only [read_integer_generic]
  rw [hh]
  dsimp only
  rw [hv]
  norm_num [MAX_CONTAINER_SIZE, Except.map]

/-- Helper for the cap claims: the same count cap for wire maps. -/
theorem read_value_map_cap :
    ∀ (le : Bool) (d : List Nat) (p p1 p' : Nat) (tag ty : Nat)
      (fuel lim : Nat),
      0 < lim →
      read_head d p = .ok ((tag, ty), p1) →
      read_value le d (fuel + 1) (lim - 1) ty p1 = .ok (.jint 10000001, p') →
      read_value le d (fuel + 4) lim JCE_MAP p = .error .malformedData := by
  intro le d p p1 p' tag ty fuel lim hlim hh hv
  simp only [read_value, JCE_ZERO_TAG, JCE_INT1, JCE_INT2, JCE_INT4, JCE_INT8,
    JCE_FLOAT, JCE_DOUBLE, JCE_STRING1, JCE_STRING4, JCE_LIST, JCE_MAP]
  norm_num
  simp only [read_map, check_recursion]
  rw [if_neg (by omega)]
  simp only [read_integer_generic]
  rw [hh]
  dsimp only
  rw [hv]
  norm_num [MAX_CONTAINER_SIZE, Except.map]

/-- C6: a `String4` value whose declared length field reads as
`100*1024*1024 + 1` fails with `MalformedData` wherever it occurs, and a
list or map whose declared element count reads as `10000001` fails with
`MalformedData`; concretely, generic decode rejects the corresponding
byte streams, while a length exactly at the string cap passes the cap
check (failing later with `PartialData` only because the payload is
absent). -/
theorem claim6_caps :
    (∀ (le : Bool) (d : List Nat) (p p' : Nat) (fuel lim : Nat),
      rd (read_int_w 4 le d p) = .ok ((104857601 : Int), p') →
      read_value le d (fuel + 1) lim JCE_STRING4 p = .error .malformedData) ∧
    (∀ (le : Bool) (d : List Nat) (p p1 p' : Nat) (tag ty : Nat)
      (fuel lim : Nat),
      0 < lim →
      read_head d p = .ok ((tag, ty), p1) →
      read_value le d (fuel + 1) (lim - 1) ty p1 = .ok (.jint 10000001, p') →
      read_value le d (fuel + 4) lim JCE_LIST p = .error .malformedData) ∧
    (∀ (le : Bool) (d : List Nat) (p p1 p' : Nat) (tag ty : Nat)
      (fuel lim : Nat),
      0 < lim →
      read_head d p = .ok ((tag, ty), p1) →
      read_value le d (fuel + 1) (lim - 1) ty p1 = .ok (.jint 10000001, p') →
      read_value le d (fuel + 4) lim JCE_MAP p = .error .malformedData) ∧
    generic_decode false 10 [7, 6, 64, 0, 1] = .error .malformedData ∧
    generic_decode false 10 [7, 6, 64, 0, 0] = .error .partialData ∧
    generic_decode false 10 [9, 2, 0, 152, 150, 129] = .error .malformedData ∧
    generic_decode false 10 [8, 2, 0, 152, 150, 129] = .error .malformedData :=
  ⟨read_value_string4_cap, read_value_list_cap, read_value_map_cap,
   rfl, rfl, rfl, rfl⟩

/-- C6 (witness): the three cap rejections at concrete byte streams. -/
theorem claim6_witness :
    read_value false [7, 6, 64, 0, 1] (0 + 1) 100 JCE_STRING4 1 =
      .error .malformedData ∧
    read_value false [9, 2, 0, 152, 150, 129] (0 + 4) 100 JCE_LIST 1 =
      .error .malformedData ∧
    read_value false [8, 2, 0, 152, 150, 129] (0 + 4) 100 JCE_MAP 1 =
      .error .malformedData :=
  ⟨claim6_caps.1 false [7, 6, 64, 0, 1] 1 5 0 100 rfl,
   claim6_caps.2.1 false [9, 2, 0, 152, 150, 129] 1 2 6 0 2 0 100 (by decide)
     rfl rfl,
   claim6_caps.2.2.1 false [8, 2, 0, 152, 150, 129] 1 2 6 0 2 0 100 (by decide)
     rfl rfl⟩

set_option maxRecDepth 100000 in
/-- C7: a struct nested 101 levels deep fails generic decode with
`RecursionLimitExceeded` while 100 levels still succeed, and the
recursion error kind is distinct from every data-error kind. -/
theorem claim7_recursion_bound :
    generic_decode false 2000 (List.replicate 101 10 ++ List.replicate 101 11) =
      .error .recursionLimit ∧
    (generic_decode false 2000
      (List.replicate 100 10 ++ List.replicate 100 11)).isOk = true ∧
    JceError.recursionLimit ≠ .malformedData ∧
    JceError.recursionLimit ≠ .partialData ∧
    JceError.recursionLimit ≠ .outOfFuel :=
  ⟨rfl, rfl, by decide, by decide, by decide⟩

/-- C8: for every reader primitive, starting from an in-bounds position:
the position after the call is exactly the input position plus the bytes
the primitive consumes when it succeeds, is unchanged when it fails, and
never exceeds the buffer length (positions are naturals, so `0 ≤ pos` is
structural). -/
theorem claim8_cursor_invariant (d : List Nat) (p : Nat) (len : Int)
    (w : Nat) (le : Bool) (h : p ≤ d.length) :
    ((read_bytes d p len).2 =
        (if (read_bytes d p len).1.isOk then p + len.toNat else p) ∧
      (read_bytes d p len).2 ≤ d.length) ∧
    ((read_u8 d p).2 = (if (read_u8 d p).1.isOk then p + 1 else p) ∧
      (read_u8 d p).2 ≤ d.length) ∧
    ((peek_u8 d p).2 = p) ∧
    ((skipBytes d p len).2 =
        (if (skipBytes d p len).1.isOk then p + len.toNat else p) ∧
      (skipBytes d p len).2 ≤ d.length) ∧
    ((read_int1 d p).2 = (if (read_int1 d p).1.isOk then p + 1 else p) ∧
      (read_int1 d p).2 ≤ d.length) ∧
    ((read_int_w w le d p).2 =
        (if (read_int_w w le d p).1.isOk then p + w else p) ∧
      (read_int_w w le d p).2 ≤ d.length) ∧
    ((read_float le d p).2 = (if (read_float le d p).1.isOk then p + 4 else p) ∧
      (read_float le d p).2 ≤ d.length) ∧
    ((read_double le d p).2 = (if (read_double le d p).1.isOk then p + 8 else p) ∧
      (read_double le d p).2 ≤ d.length) := by
  refine ⟨?_, ?_, ?_, ?_, ?_, ?_, ?_, ?_⟩
  · unfold read_bytes
    split
    · simp [Except.isOk, Except.toBool, h]
    · split <;> simp [Except.isOk, Except.toBool, h] <;> omega
  · unfold read_u8
    cases hd : d[p]? with
    | some b =>
      have hb : p < d.length := (List.getElem?_eq_some.mp hd).1
      simp [Except.isOk, Except.toBool]
      omega
    | none => simp [Except.isOk, Except.toBool, h]
  · unfold peek_u8
    cases hd : d[p]? <;> simp
  · unfold skipBytes
    split
    · simp [Except.isOk, Except.toBool, h]
    · split <;> simp [Except.isOk, Except.toBool, h] <;> omega
  · unfold read_int1
    cases hd : d[p]? with
    | some b =>
      have hb : p < d.length := (List.getElem?_eq_some.mp hd).1
      simp [Except.isOk, Except.toBool]
      omega
    | none => simp [Except.isOk, Except.toBool, h]
  · unfold read_int_w
    split <;> simp [Except.isOk, Except.toBool, h] <;> omega
  · unfold read_float
    split
    · simp [Except.isOk, Except.toBool, h]
    · dsimp only
      split
      · simp [Except.isOk, Except.toBool]
        omega
      · split
        · simp [Except.isOk, Except.toBool]
          omega
        · split <;> simp [Except.isOk, Except.toBool] <;> omega
  · unfold read_double
    split
    · simp [Except.isOk, Except.toBool, h]
    · dsimp only
      split
      · simp [Except.isOk, Except.toBool]
        omega
      · split
        · simp [Except.isOk, Except.toBool]
          omega
        · split
          · simp [Except.isOk, Except.toBool]
            omega
          · split <;> simp [Except.isOk, Except.toBool] <;> omega

/-- C8 (witness): the `read_u8` component at a concrete reader state. -/
theorem claim8_witness :
    (read_u8 [5] 0).2 = (if (read_u8 [5] 0).1.isOk then 0 + 1 else 0) ∧
    (read_u8 [5] 0).2 ≤ ([5] : List Nat).length :=
  (claim8_cursor_invariant [5] 0 1 2 false (by decide)).2.1

/-- C9: when its top-level loop stops with `PartialData`, the node
decoder swallows the error and returns the nodes decoded so far, while a
`MalformedData` or `RecursionLimitExceeded` status is propagated to the
caller unchanged. -/
theorem claim9_node_error_policy :
    ∀ (le : Bool) (d : List Nat) (fuel : Nat),
      ((node_loop le d fuel 100 [] 0).1 = .error .partialData →
        node_decode le d fuel = .ok (node_loop le d fuel 100 [] 0).2) ∧
      (∀ e : JceError, e = .malformedData ∨ e = .recursionLimit →
        (node_loop le d fuel 100 [] 0).1 = .error e →
        node_decode le d fuel = .error e) := by
  intro le d fuel
  constructor
  · intro h
    rcases hh : node_loop le d fuel 100 [] 0 with ⟨st, ns⟩
    unfold node_decode
    rw [hh] at h ⊢
    simp only at h
    subst h
    rfl
  · intro e he h
    rcases hh : node_loop le d fuel 100 [] 0 with ⟨st, ns⟩
    unfold node_decode
    rw [hh] at h ⊢
    simp only at h
    subst h
    rcases he with he | he <;> subst he <;> rfl

/-- C9 (witness): a truncated stream yields the partial node list, and a
malformed `String4` length propagates as `MalformedData`. -/
theorem claim9_witness :
    node_decode false [0] 10 = .ok [] ∧
    node_decode false [7, 6, 64, 0, 1] 80 = .error .malformedData :=
  ⟨(claim9_node_error_policy false [0] 10).1 rfl,
   (claim9_node_error_policy false [7, 6, 64, 0, 1] 80).2 .malformedData
     (Or.inl rfl) rfl⟩

/-- C10: inside the generic value dispatch a header whose type id is
`STRUCT_END` decodes to `None` at the unchanged cursor position with no
error; concretely, a list element with a `STRUCT_END`-typed header yields
a `None` element instead of a `MalformedData` failure. -/
theorem claim10_struct_end_value :
    (∀ (le : Bool) (d : List Nat) (fuel lim p : Nat),
      read_value le d (fuel + 1) lim JCE_STRUCT_END p = .ok (.jnone, p)) ∧
    generic_decode false 20 [0x09, 0x00, 0x01, 0x0B] =
      .ok [(0, .jlist [.jnone])] :=
  ⟨fun _ _ _ _ _ => rfl, rfl⟩
